import Mathlib

/-!
Shallow embedding of the jira2things reconciliation core
(src/database.py, src/main.py) and proofs about its sync-state engine.

Modelling conventions:
* the SQLite table `jira_tickets` is a `List DBRow`; `SELECT ... WHERE
  ticket_id = ?` + `fetchone()` is `List.find?`, an `UPDATE ... WHERE
  ticket_id = ?` maps the row transformer over every matching row, an
  `INSERT` appends;
* `CURRENT_TIMESTAMP` is an explicit `now : Nat` argument;
* Python truthiness of an optional string (`if not x`) is `optFalsy`;
* the Things client is a deterministic `SinkModel`; a raised exception is
  modelled as the failure value of the corresponding field;
* logging is ignored; every executed SQL write statement counts as one
  store write in the `writes` counter.
-/

namespace JiraToThings

/-- Tri-state value of the `synced_to_things` column
(`'synced' | 'not synced' | 'unknown'`, src/database.py:65). -/
inductive SyncState where
  | synced
  | notSynced
  | unknown
deriving DecidableEq, Repr

/-- Python truthiness test on an optional string field: `not x` holds
exactly for `None` and the empty string. -/
def optFalsy : Option String → Bool
  | none => true
  | some s => s == ""

/-- The `JiraTicket` dataclass (src/database.py:8-23). -/
structure JiraTicket where
  ticket_id : String
  summary : String
  description : String
  has_subtasks : Bool
  status : String
  issue_type : Option String := none
  sprint_name : Option String := none
  sprint_status : Option String := none
  sprint_end_time : Option String := none
  things_id : Option String := none
  present_in_last_fetch : Bool := true
  things_project : Option String := none
  last_updated : Option Nat := none
deriving DecidableEq, Repr

/-- One row of the `jira_tickets` table (src/database.py:50-68). -/
structure DBRow where
  ticket_id : String
  summary : String
  description : String
  has_subtasks : Bool
  status : String
  issue_type : Option String
  sprint_name : Option String
  sprint_status : Option String
  sprint_end_time : Option String
  things_id : Option String
  things_project : Option String
  added_to_db : Option Nat
  present_in_last_fetch : Bool
  synced_to_things : SyncState
  last_updated : Option Nat
deriving DecidableEq, Repr

/-- `SELECT ... FROM jira_tickets WHERE ticket_id = ?` + `fetchone()`. -/
def findRow (db : List DBRow) (tid : String) : Option DBRow :=
  db.find? (fun r => r.ticket_id == tid)

/-- The eight-field change comparison of `DatabaseManager.save_ticket`
(src/database.py:107-116). -/
def hasChangesSave (r : DBRow) (t : JiraTicket) : Bool :=
  r.summary != t.summary ||
  r.description != t.description ||
  r.status != t.status ||
  r.issue_type != t.issue_type ||
  r.sprint_name != t.sprint_name ||
  r.sprint_status != t.sprint_status ||
  r.sprint_end_time != t.sprint_end_time ||
  r.things_project != t.things_project

/-- The row written by the `UPDATE` branch of `save_ticket`
(src/database.py:125-133): content fields replaced, `things_id` set to the
resolved value, `synced_to_things` forced to `'not synced'`,
`last_updated = CURRENT_TIMESTAMP`. -/
def updatedRow (r : DBRow) (t : JiraTicket) (thid : Option String) (now : Nat) : DBRow :=
  { r with
    summary := t.summary, description := t.description,
    has_subtasks := t.has_subtasks, status := t.status,
    issue_type := t.issue_type, sprint_name := t.sprint_name,
    sprint_status := t.sprint_status, sprint_end_time := t.sprint_end_time,
    things_id := thid, things_project := t.things_project,
    synced_to_things := SyncState.notSynced, last_updated := some now }

/-- The row written by the `INSERT` branch of `save_ticket`
(src/database.py:137-145); `present_in_last_fetch` is not in the column
list and takes its schema default `1` (src/database.py:64). -/
def insertedRow (t : JiraTicket) (now : Nat) : DBRow :=
  { ticket_id := t.ticket_id, summary := t.summary, description := t.description,
    has_subtasks := t.has_subtasks, status := t.status, issue_type := t.issue_type,
    sprint_name := t.sprint_name, sprint_status := t.sprint_status,
    sprint_end_time := t.sprint_end_time, things_id := t.things_id,
    things_project := t.things_project, added_to_db := some now,
    present_in_last_fetch := true, synced_to_things := SyncState.notSynced,
    last_updated := some now }

/-- Per-row effect of the `UPDATE ... WHERE ticket_id = ?` statement of
`save_ticket`: rows under the ticket's id are replaced, others kept. -/
def saveUpd (t : JiraTicket) (thid : Option String) (now : Nat) (row : DBRow) : DBRow :=
  if row.ticket_id == t.ticket_id then updatedRow row t thid now else row

/-- `DatabaseManager.save_ticket` (src/database.py:84-147).  Returns the
new table together with a flag recording whether a write statement was
executed (the unchanged branch returns early without writing,
src/database.py:118-121). -/
def save_ticket (db : List DBRow) (t : JiraTicket) (now : Nat) : List DBRow × Bool :=
  match findRow db t.ticket_id with
  | some r =>
      let thid := if optFalsy t.things_id then r.things_id else t.things_id
      if hasChangesSave r t then
        (db.map (saveUpd t thid now), true)
      else
        (db, false)
  | none => (db ++ [insertedRow t now], true)

/-- Per-row effect of the single `UPDATE` statement of
`DatabaseManager.mark_present` (src/database.py:201-214).  In SQLite the
column references on the right-hand side of `SET` read the pre-update
row, so `present_in_last_fetch != (ticket_id IN (...))` is a genuine
flip test against the old flag. -/
def markRow (ids : List String) (r : DBRow) : DBRow :=
  let newPresent := ids.contains r.ticket_id
  { r with
    present_in_last_fetch := newPresent,
    synced_to_things :=
      if r.synced_to_things == SyncState.synced && r.present_in_last_fetch != newPresent
      then SyncState.notSynced else r.synced_to_things }

/-- `DatabaseManager.mark_present` (src/database.py:192-216): early return
on an empty id list, otherwise one unconditional `UPDATE` over all rows. -/
def mark_present (db : List DBRow) (all_issues : List JiraTicket) : List DBRow :=
  let ticket_ids := all_issues.map (fun t => t.ticket_id)
  if ticket_ids.isEmpty then db
  else db.map (markRow ticket_ids)

/-- The five-field comparison of `update_db` (src/main.py:161-165); it
drives only the added/updated/unchanged counters. -/
def hasChangesMain (ex : DBRow) (t : JiraTicket) : Bool :=
  ex.summary != t.summary ||
  ex.description != t.description ||
  ex.status != t.status ||
  ex.issue_type != t.issue_type ||
  ex.things_project != t.things_project

/-- Result of the mirror update phase: final table, the three reported
counters (src/main.py:147-149,199) and the number of store writes. -/
structure UpdRes where
  db : List DBRow
  added : Nat
  updated : Nat
  unchanged : Nat
  writes : Nat
deriving DecidableEq, Repr

/-- `issue.things_project = project_name` (src/main.py:155). -/
def applyProject (proj : Option String) (t : JiraTicket) : JiraTicket :=
  { t with things_project := proj }

/-- Flattening of the nested loop over `issues_by_query`
(src/main.py:153-154), with the project label applied to each issue. -/
def flattenIssues (qs : List (Option String × List JiraTicket)) : List JiraTicket :=
  qs.flatMap (fun pq => pq.2.map (applyProject pq.1))

/-- Loop body of `update_db` (src/main.py:153-195): look up the stored
row (`get_ticket_by_id`), bump a counter from the five-field comparison,
then call `save_ticket`.  The best-effort completion call to the sink on
a completed-status transition (src/main.py:171-186) performs no
mirror-store write and is therefore not part of the store model. -/
def processIssue (now : Nat) (acc : UpdRes) (t : JiraTicket) : UpdRes :=
  match findRow acc.db t.ticket_id with
  | some ex =>
      if hasChangesMain ex t then
        { db := (save_ticket acc.db t now).1, added := acc.added,
          updated := acc.updated + 1, unchanged := acc.unchanged,
          writes := acc.writes + (if (save_ticket acc.db t now).2 then 1 else 0) }
      else
        { db := (save_ticket acc.db t now).1, added := acc.added,
          updated := acc.updated, unchanged := acc.unchanged + 1,
          writes := acc.writes + (if (save_ticket acc.db t now).2 then 1 else 0) }
  | none =>
      { db := (save_ticket acc.db t now).1, added := acc.added + 1,
        updated := acc.updated, unchanged := acc.unchanged,
        writes := acc.writes + (if (save_ticket acc.db t now).2 then 1 else 0) }

/-- `update_db` (src/main.py:128-199): early return when no issues were
fetched (src/main.py:142-144), otherwise process every issue in order. -/
def update_db (db : List DBRow) (qs : List (Option String × List JiraTicket))
    (now : Nat) : UpdRes :=
  if (flattenIssues qs).isEmpty then ⟨db, 0, 0, 0, 0⟩
  else (flattenIssues qs).foldl (processIssue now) ⟨db, 0, 0, 0, 0⟩

/-- Deterministic model of the Things client used by the propagation
phase.  `addTask t = none` models `AddTask(**kwargs)` raising;
`addTask t = some thid` models success with `x_things_id = thid`, which
itself may be absent (src/main.py:289-290).  `updateTask t = false`
models `UpdateTask(**kwargs)` raising. -/
structure SinkModel where
  addTask : JiraTicket → Option (Option String)
  updateTask : JiraTicket → Bool

/-- Row-to-dataclass conversion used by the `SELECT` helpers
(src/database.py:149-190). -/
def rowToTicket (r : DBRow) : JiraTicket :=
  { ticket_id := r.ticket_id, summary := r.summary, description := r.description,
    has_subtasks := r.has_subtasks, status := r.status, issue_type := r.issue_type,
    sprint_name := r.sprint_name, sprint_status := r.sprint_status,
    sprint_end_time := r.sprint_end_time, things_id := r.things_id,
    present_in_last_fetch := r.present_in_last_fetch,
    things_project := r.things_project, last_updated := r.last_updated }

/-- `DatabaseManager.get_unsynced_tickets` (src/database.py:160-173):
rows with `synced_to_things = 'not synced'`. -/
def get_unsynced_tickets (db : List DBRow) : List JiraTicket :=
  (db.filter (fun r => r.synced_to_things == SyncState.notSynced)).map rowToTicket

/-- `DatabaseManager.get_all_tickets` (src/database.py:149-158). -/
def get_all_tickets (db : List DBRow) : List JiraTicket :=
  db.map rowToTicket

/-- `UPDATE jira_tickets SET synced_to_things = ? WHERE ticket_id = ?`
(src/main.py:303,331,339). -/
def setSyncById (db : List DBRow) (tid : String) (s : SyncState) : List DBRow :=
  db.map (fun r => if r.ticket_id == tid then { r with synced_to_things := s } else r)

/-- `UPDATE jira_tickets SET synced_to_things = ?, things_id = ? WHERE
ticket_id = ?` (src/main.py:295). -/
def setSyncAndThingsId (db : List DBRow) (tid : String) (s : SyncState)
    (thid : Option String) : List DBRow :=
  db.map (fun r =>
    if r.ticket_id == tid then { r with synced_to_things := s, things_id := thid } else r)

/-- Result of a propagation run: final table, the three reported
counters (src/main.py:279-281,346) and the number of store writes. -/
structure SyncRes where
  db : List DBRow
  added : Nat
  updated : Nat
  failed : Nat
  writes : Nat
deriving DecidableEq, Repr

/-- Loop body for tickets without a `things_id`
(src/main.py:284-306): on `AddTask` success persist
`synced` + the returned id, on exception persist `unknown`; either way
count and continue. -/
def processCreate (sink : SinkModel) (acc : SyncRes) (t : JiraTicket) : SyncRes :=
  match sink.addTask t with
  | some thid =>
      { db := setSyncAndThingsId acc.db t.ticket_id SyncState.synced thid,
        added := acc.added + 1, updated := acc.updated, failed := acc.failed,
        writes := acc.writes + 1 }
  | none =>
      { db := setSyncById acc.db t.ticket_id SyncState.unknown,
        added := acc.added, updated := acc.updated, failed := acc.failed + 1,
        writes := acc.writes + 1 }

/-- Loop body for tickets with a `things_id` (src/main.py:309-342): a
missing auth token counts as failed and skips the ticket with no store
write and no sink call; otherwise `UpdateTask` success persists `synced`
and an exception persists `unknown`. -/
def processUpdate (sink : SinkModel) (auth : Option String)
    (acc : SyncRes) (t : JiraTicket) : SyncRes :=
  if optFalsy auth then
    { acc with failed := acc.failed + 1 }
  else if sink.updateTask t then
    { db := setSyncById acc.db t.ticket_id SyncState.synced,
      added := acc.added, updated := acc.updated + 1, failed := acc.failed,
      writes := acc.writes + 1 }
  else
    { db := setSyncById acc.db t.ticket_id SyncState.unknown,
      added := acc.added, updated := acc.updated, failed := acc.failed + 1,
      writes := acc.writes + 1 }

/-- The propagation planner: `new_tickets = [t for t in ts if not
t.things_id]`, `update_tickets = [t for t in ts if t.things_id]`
(src/main.py:271-272 and src/main.py:359-360). -/
def partitionByThingsId (ts : List JiraTicket) : List JiraTicket × List JiraTicket :=
  (ts.filter (fun t => optFalsy t.things_id),
   ts.filter (fun t => !optFalsy t.things_id))

/-- `sync_to_things` (src/main.py:260-346): fetch the unsynced rows,
early return when there are none, plan, then run the create loop
followed by the update loop. -/
def sync_to_things (sink : SinkModel) (auth : Option String)
    (db : List DBRow) : SyncRes :=
  if (get_unsynced_tickets db).isEmpty then ⟨db, 0, 0, 0, 0⟩
  else
    (partitionByThingsId (get_unsynced_tickets db)).2.foldl (processUpdate sink auth)
      ((partitionByThingsId (get_unsynced_tickets db)).1.foldl (processCreate sink)
        ⟨db, 0, 0, 0, 0⟩)

/-- `resync_to_things` (src/main.py:348-434): same as `sync_to_things`
but over every stored row regardless of sync state. -/
def resync_to_things (sink : SinkModel) (auth : Option String)
    (db : List DBRow) : SyncRes :=
  if (get_all_tickets db).isEmpty then ⟨db, 0, 0, 0, 0⟩
  else
    (partitionByThingsId (get_all_tickets db)).2.foldl (processUpdate sink auth)
      ((partitionByThingsId (get_all_tickets db)).1.foldl (processCreate sink)
        ⟨db, 0, 0, 0, 0⟩)

/-- The four execution modes dispatched by `main` (src/main.py:100-119).
No mode invokes `mark_present`; the store is touched only through
`update_db`, `sync_to_things` and `resync_to_things`. -/
inductive Mode where
  | updateDbOnly
  | syncOnly
  | resyncOnly
  | fullSync
deriving DecidableEq, Repr

/-- Store effect of one invocation of `main` in the given mode
(src/main.py:100-119). -/
def runMode (m : Mode) (sink : SinkModel) (auth : Option String)
    (qs : List (Option String × List JiraTicket)) (now : Nat)
    (db : List DBRow) : List DBRow :=
  match m with
  | Mode.updateDbOnly => (update_db db qs now).db
  | Mode.syncOnly => (sync_to_things sink auth db).db
  | Mode.resyncOnly => (resync_to_things sink auth db).db
  | Mode.fullSync => (sync_to_things sink auth (update_db db qs now).db).db

/-- The default full pipeline (src/main.py:116-119): mirror update phase
followed by propagation phase, returning both phase reports. -/
def runFull (sink : SinkModel) (auth : Option String)
    (qs : List (Option String × List JiraTicket)) (now : Nat)
    (db : List DBRow) : UpdRes × SyncRes :=
  (update_db db qs now, sync_to_things sink auth (update_db db qs now).db)

/-- Forgets the two fields the propagation phase may write
(`synced_to_things` and `things_id`); equality up to `eraseSync` states
that a transformation touches nothing else. -/
def eraseSync (r : DBRow) : DBRow :=
  { r with synced_to_things := SyncState.notSynced, things_id := none }

/-- The frame relation for C4: the right row keeps the left row's
`present_in_last_fetch` value. -/
def samePresent (r r' : DBRow) : Prop :=
  r'.present_in_last_fetch = r.present_in_last_fetch

/-- Example stored row used in concrete witnesses and counterexamples. -/
def exRowA : DBRow :=
  { ticket_id := "T-1", summary := "Fix bug", description := "desc",
    has_subtasks := false, status := "Open", issue_type := some "Bug",
    sprint_name := some "Sprint 1", sprint_status := some "active",
    sprint_end_time := some "2026-01-01", things_id := some "ABC",
    things_project := some "Work", added_to_db := some 0,
    present_in_last_fetch := true, synced_to_things := SyncState.synced,
    last_updated := some 0 }

/-- Incoming record equal to `exRowA` on the five spec-compared fields
(title, body, status, category, group label) but differing in
`sprint_name`, and supplying no `things_id`. -/
def exTicketA : JiraTicket :=
  { ticket_id := "T-1", summary := "Fix bug", description := "desc",
    has_subtasks := false, status := "Open", issue_type := some "Bug",
    sprint_name := some "Sprint 2", sprint_status := some "active",
    sprint_end_time := some "2026-01-01", things_id := none,
    things_project := some "Work" }

/-- Incoming record equal to `exRowA` on all eight compared fields. -/
def exTicketEq : JiraTicket :=
  { ticket_id := "T-1", summary := "Fix bug", description := "desc",
    has_subtasks := false, status := "Open", issue_type := some "Bug",
    sprint_name := some "Sprint 1", sprint_status := some "active",
    sprint_end_time := some "2026-01-01", things_id := none,
    things_project := some "Work" }

/-- A fresh incoming record with no stored entry under its id. -/
def exTicketNew : JiraTicket :=
  { ticket_id := "T-2", summary := "New task", description := "",
    has_subtasks := false, status := "Open", issue_type := some "Task",
    things_project := some "Work" }

/-- A stored entry needing propagation with no sink id (routed to create). -/
def exRowUnsynced : DBRow :=
  { exRowA with
    ticket_id := "T-3", things_id := none,
    synced_to_things := SyncState.notSynced }

/-- A stored entry needing propagation with sink id `"ABC"` (routed to
update). -/
def exRowUnsyncedU : DBRow :=
  { exRowA with ticket_id := "T-4", synced_to_things := SyncState.notSynced }

/-- Sink model in which every call raises. -/
def exSinkFail : SinkModel := ⟨fun _ => none, fun _ => false⟩

/-- Sink model in which every call succeeds but the create response
carries no identifier (`x_things_id` absent, src/main.py:290). -/
def exSinkOkNone : SinkModel := ⟨fun _ => some none, fun _ => true⟩

/- ------------------------------------------------------------------ -/
/- Helper lemmas about row lookup and `save_ticket`.                   -/
/- ------------------------------------------------------------------ -/

theorem findRow_id {db : List DBRow} {tid : String} {r : DBRow}
    (h : findRow db tid = some r) : r.ticket_id = tid := by
  have := List.find?_some h
  simpa using this

theorem findRow_mem {db : List DBRow} {tid : String} {r : DBRow}
    (h : findRow db tid = some r) : r ∈ db :=
  List.mem_of_find?_eq_some h

theorem findRow_map (db : List DBRow) (tid : String) (f : DBRow → DBRow)
    (hf : ∀ r, (f r).ticket_id = r.ticket_id) :
    findRow (db.map f) tid = (findRow db tid).map f := by
  induction db with
  | nil => rfl
  | cons a l ih =>
      unfold findRow at ih ⊢
      rw [List.map_cons, List.find?_cons, List.find?_cons, hf]
      cases h : (a.ticket_id == tid) with
      | true => rfl
      | false => exact ih

theorem findRow_append (db₁ db₂ : List DBRow) (tid : String) :
    findRow (db₁ ++ db₂) tid =
      match findRow db₁ tid with
      | some r => some r
      | none => findRow db₂ tid := by
  induction db₁ with
  | nil => rfl
  | cons a l ih =>
      unfold findRow at ih ⊢
      rw [List.cons_append, List.find?_cons, List.find?_cons]
      cases h : (a.ticket_id == tid) with
      | true => rfl
      | false => exact ih

theorem updatedRow_ticket_id (r : DBRow) (t : JiraTicket) (thid : Option String)
    (now : Nat) : (updatedRow r t thid now).ticket_id = r.ticket_id := rfl

theorem saveUpd_ticket_id (t : JiraTicket) (thid : Option String) (now : Nat) :
    ∀ row, (saveUpd t thid now row).ticket_id = row.ticket_id := by
  intro row
  unfold saveUpd
  by_cases h : row.ticket_id = t.ticket_id
  · simp [h, updatedRow]
  · simp [h]

theorem saveUpd_eq_of_id (t : JiraTicket) (thid : Option String) (now : Nat)
    {row : DBRow} (h : row.ticket_id = t.ticket_id) :
    saveUpd t thid now row = updatedRow row t thid now := by
  unfold saveUpd; simp [h]

theorem saveUpd_eq_of_ne (t : JiraTicket) (thid : Option String) (now : Nat)
    {row : DBRow} (h : row.ticket_id ≠ t.ticket_id) :
    saveUpd t thid now row = row := by
  unfold saveUpd; simp [h]

theorem save_ticket_of_none {db : List DBRow} {t : JiraTicket} (now : Nat)
    (h : findRow db t.ticket_id = none) :
    save_ticket db t now = (db ++ [insertedRow t now], true) := by
  unfold save_ticket; rw [h]

theorem save_ticket_of_changed {db : List DBRow} {t : JiraTicket} (now : Nat)
    {r : DBRow} (h : findRow db t.ticket_id = some r)
    (hc : hasChangesSave r t = true) :
    save_ticket db t now =
      (db.map (saveUpd t (if optFalsy t.things_id then r.things_id else t.things_id) now),
       true) := by
  unfold save_ticket; rw [h]; simp [hc]

theorem save_ticket_of_unchanged {db : List DBRow} {t : JiraTicket} (now : Nat)
    {r : DBRow} (h : findRow db t.ticket_id = some r)
    (hc : hasChangesSave r t = false) :
    save_ticket db t now = (db, false) := by
  unfold save_ticket; rw [h]; simp [hc]

theorem save_ticket_fst_of_none {db : List DBRow} {t : JiraTicket} (now : Nat)
    (h : findRow db t.ticket_id = none) :
    (save_ticket db t now).1 = db ++ [insertedRow t now] := by
  rw [save_ticket_of_none now h]

theorem save_ticket_snd_of_none {db : List DBRow} {t : JiraTicket} (now : Nat)
    (h : findRow db t.ticket_id = none) :
    (save_ticket db t now).2 = true := by
  rw [save_ticket_of_none now h]

theorem save_ticket_fst_of_changed {db : List DBRow} {t : JiraTicket} (now : Nat)
    {r : DBRow} (h : findRow db t.ticket_id = some r)
    (hc : hasChangesSave r t = true) :
    (save_ticket db t now).1 =
      db.map (saveUpd t (if optFalsy t.things_id then r.things_id else t.things_id) now) := by
  rw [save_ticket_of_changed now h hc]

theorem save_ticket_snd_of_changed {db : List DBRow} {t : JiraTicket} (now : Nat)
    {r : DBRow} (h : findRow db t.ticket_id = some r)
    (hc : hasChangesSave r t = true) :
    (save_ticket db t now).2 = true := by
  rw [save_ticket_of_changed now h hc]

theorem save_ticket_fst_of_unchanged {db : List DBRow} {t : JiraTicket} (now : Nat)
    {r : DBRow} (h : findRow db t.ticket_id = some r)
    (hc : hasChangesSave r t = false) :
    (save_ticket db t now).1 = db := by
  rw [save_ticket_of_unchanged now h hc]

theorem save_ticket_snd_of_unchanged {db : List DBRow} {t : JiraTicket} (now : Nat)
    {r : DBRow} (h : findRow db t.ticket_id = some r)
    (hc : hasChangesSave r t = false) :
    (save_ticket db t now).2 = false := by
  rw [save_ticket_of_unchanged now h hc]

theorem hasChangesSave_updatedRow (r : DBRow) (t : JiraTicket)
    (thid : Option String) (now : Nat) :
    hasChangesSave (updatedRow r t thid now) t = false := by
  simp [hasChangesSave, updatedRow]

theorem hasChangesSave_insertedRow (t : JiraTicket) (now : Nat) :
    hasChangesSave (insertedRow t now) t = false := by
  simp [hasChangesSave, insertedRow]

/-- Lookup of a ticket's own id in the one-row table it inserts. -/
theorem findRow_singleton_inserted (t : JiraTicket) (now : Nat) :
    findRow [insertedRow t now] t.ticket_id = some (insertedRow t now) := by
  unfold findRow
  rw [List.find?_cons]
  have hb : ((insertedRow t now).ticket_id == t.ticket_id) = true := by
    simp [insertedRow]
  rw [hb]

theorem findRow_singleton_inserted_ne (t : JiraTicket) (now : Nat)
    {tid : String} (hne : t.ticket_id ≠ tid) :
    findRow [insertedRow t now] tid = none := by
  unfold findRow
  rw [List.find?_cons]
  have hb : ((insertedRow t now).ticket_id == tid) = false := by
    simp [insertedRow]
    exact hne
  rw [hb]
  rfl

/-- After `save_ticket`, the first stored row under the ticket's id exists
and agrees with the ticket on all eight compared fields. -/
theorem save_ticket_establishes (db : List DBRow) (t : JiraTicket) (now : Nat) :
    ∃ r', findRow (save_ticket db t now).1 t.ticket_id = some r' ∧
      hasChangesSave r' t = false := by
  cases hf : findRow db t.ticket_id with
  | none =>
      refine ⟨insertedRow t now, ?_, hasChangesSave_insertedRow t now⟩
      rw [save_ticket_fst_of_none now hf, findRow_append, hf]
      exact findRow_singleton_inserted t now
  | some r =>
      by_cases hc : hasChangesSave r t = true
      · rw [save_ticket_fst_of_changed now hf hc,
          findRow_map _ _ _ (saveUpd_ticket_id t _ now), hf]
        have hid : r.ticket_id = t.ticket_id := findRow_id hf
        refine ⟨updatedRow r t (if optFalsy t.things_id then r.things_id else t.things_id) now,
          ?_, hasChangesSave_updatedRow ..⟩
        simp [saveUpd_eq_of_id t _ now hid]
      · have hc' : hasChangesSave r t = false := by simpa using hc
        rw [save_ticket_fst_of_unchanged now hf hc']
        exact ⟨r, hf, hc'⟩

/-- `save_ticket` leaves the lookup of every other id unchanged. -/
theorem save_ticket_findRow_other (db : List DBRow) (t : JiraTicket) (now : Nat)
    {tid : String} (hne : t.ticket_id ≠ tid) :
    findRow (save_ticket db t now).1 tid = findRow db tid := by
  cases hf : findRow db t.ticket_id with
  | none =>
      rw [save_ticket_fst_of_none now hf, findRow_append]
      cases hx : findRow db tid with
      | some r => rfl
      | none => exact findRow_singleton_inserted_ne t now hne
  | some r =>
      by_cases hc : hasChangesSave r t = true
      · rw [save_ticket_fst_of_changed now hf hc,
          findRow_map _ _ _ (saveUpd_ticket_id t _ now)]
        cases hx : findRow db tid with
        | none => rfl
        | some r₀ =>
            have hne' : r₀.ticket_id ≠ t.ticket_id := by
              rw [findRow_id hx]
              exact fun hh => hne hh.symm
            simp [saveUpd_eq_of_ne t _ now hne']
      · have hc' : hasChangesSave r t = false := by simpa using hc
        rw [save_ticket_fst_of_unchanged now hf hc']

/- ------------------------------------------------------------------ -/
/- C1: the change detector's unchanged test.                           -/
/- ------------------------------------------------------------------ -/

/-- C1, counterexample: the incoming record `exTicketA` agrees with the
stored row `exRowA` on all five spec-compared fields (title, body,
status, category, group label), yet `save_ticket` performs a write and
demotes the previously Synced entry to NotSynced, because the code also
compares the three sprint fields (src/database.py:112-114). -/
theorem claim1_counterexample :
    (exRowA.summary = exTicketA.summary ∧
     exRowA.description = exTicketA.description ∧
     exRowA.status = exTicketA.status ∧
     exRowA.issue_type = exTicketA.issue_type ∧
     exRowA.things_project = exTicketA.things_project) ∧
    findRow [exRowA] exTicketA.ticket_id = some exRowA ∧
    exRowA.synced_to_things = SyncState.synced ∧
    (save_ticket [exRowA] exTicketA 5).2 = true ∧
    ∃ r', findRow (save_ticket [exRowA] exTicketA 5).1 exTicketA.ticket_id = some r' ∧
      r'.synced_to_things = SyncState.notSynced := by
  refine ⟨by decide, by decide, by decide, by decide, ?_⟩
  refine ⟨updatedRow exRowA exTicketA (some "ABC") 5, by decide, by decide⟩

/-- C1 (amended): for an incoming record with a stored entry under the
same id, `save_ticket` performs no database write and leaves the table
(including `sync_state` and the update timestamp) unaltered if and only
if all eight compared fields — title, body, status, category, group
label, and the three schedule-window fields (label, state, end time) —
equal the stored entry's values. -/
theorem claim1_amended (db : List DBRow) (t : JiraTicket) (now : Nat) (r : DBRow)
    (h : findRow db t.ticket_id = some r) :
    ((save_ticket db t now).2 = false ∧ (save_ticket db t now).1 = db) ↔
      (r.summary = t.summary ∧ r.description = t.description ∧
       r.status = t.status ∧ r.issue_type = t.issue_type ∧
       r.sprint_name = t.sprint_name ∧ r.sprint_status = t.sprint_status ∧
       r.sprint_end_time = t.sprint_end_time ∧ r.things_project = t.things_project) := by
  constructor
  · rintro ⟨h2, -⟩
    by_cases hc : hasChangesSave r t = true
    · rw [save_ticket_snd_of_changed now h hc] at h2
      exact Bool.noConfusion h2
    · have hc' : hasChangesSave r t = false := by simpa using hc
      unfold hasChangesSave at hc'
      simp only [Bool.or_eq_false_iff, bne_eq_false_iff_eq] at hc'
      tauto
  · intro he
    obtain ⟨e1, e2, e3, e4, e5, e6, e7, e8⟩ := he
    have hc : hasChangesSave r t = false := by
      simp [hasChangesSave, e1, e2, e3, e4, e5, e6, e7, e8]
    exact ⟨save_ticket_snd_of_unchanged now h hc, save_ticket_fst_of_unchanged now h hc⟩

/-- Witness for `claim1_amended` at a concrete input: `exTicketEq` agrees
with `exRowA` on all eight compared fields, so no write occurs. -/
theorem claim1_amended_witness :
    findRow [exRowA] exTicketEq.ticket_id = some exRowA ∧
    ((save_ticket [exRowA] exTicketEq 5).2 = false ∧
      (save_ticket [exRowA] exTicketEq 5).1 = [exRowA]) :=
  ⟨by decide,
   (claim1_amended [exRowA] exTicketEq 5 exRowA (by decide)).mpr (by decide)⟩

/- ------------------------------------------------------------------ -/
/- C5: the changed and new branches of `save_ticket`.                  -/
/- ------------------------------------------------------------------ -/

/-- C5: when the stored entry differs (record classified Changed),
`save_ticket` writes the new field values, refreshes the update
timestamp and forces `sync_state` to NotSynced regardless of its prior
value; and when no stored entry exists, a new entry is inserted with
`sync_state` NotSynced. -/
theorem claim5 (db : List DBRow) (t : JiraTicket) (now : Nat) :
    (∀ r, findRow db t.ticket_id = some r → hasChangesSave r t = true →
      ∃ r', findRow (save_ticket db t now).1 t.ticket_id = some r' ∧
        r'.summary = t.summary ∧ r'.description = t.description ∧
        r'.has_subtasks = t.has_subtasks ∧ r'.status = t.status ∧
        r'.issue_type = t.issue_type ∧ r'.sprint_name = t.sprint_name ∧
        r'.sprint_status = t.sprint_status ∧ r'.sprint_end_time = t.sprint_end_time ∧
        r'.things_project = t.things_project ∧
        r'.synced_to_things = SyncState.notSynced ∧
        r'.last_updated = some now ∧
        (save_ticket db t now).2 = true) ∧
    (findRow db t.ticket_id = none →
      ∃ r', findRow (save_ticket db t now).1 t.ticket_id = some r' ∧
        r' = insertedRow t now ∧ r'.synced_to_things = SyncState.notSynced ∧
        r'.last_updated = some now ∧
        (save_ticket db t now).2 = true) := by
  constructor
  · intro r h hc
    have hid : r.ticket_id = t.ticket_id := findRow_id h
    rw [save_ticket_fst_of_changed now h hc, save_ticket_snd_of_changed now h hc,
      findRow_map _ _ _ (saveUpd_ticket_id t _ now), h]
    refine ⟨updatedRow r t (if optFalsy t.things_id then r.things_id else t.things_id) now,
      ?_, rfl, rfl, rfl, rfl, rfl, rfl, rfl, rfl, rfl, rfl, rfl, rfl⟩
    simp [saveUpd_eq_of_id t _ now hid]
  · intro h
    rw [save_ticket_fst_of_none now h, save_ticket_snd_of_none now h, findRow_append, h]
    exact ⟨insertedRow t now, findRow_singleton_inserted t now, rfl, rfl, rfl, rfl⟩

/-- Witness for `claim5` at concrete inputs: the changed branch on
`exRowA`/`exTicketA`, and the new branch on an empty table. -/
theorem claim5_witness :
    (findRow [exRowA] exTicketA.ticket_id = some exRowA ∧
      hasChangesSave exRowA exTicketA = true ∧
      ∃ r', findRow (save_ticket [exRowA] exTicketA 5).1 exTicketA.ticket_id = some r' ∧
        r'.summary = exTicketA.summary ∧ r'.description = exTicketA.description ∧
        r'.has_subtasks = exTicketA.has_subtasks ∧ r'.status = exTicketA.status ∧
        r'.issue_type = exTicketA.issue_type ∧ r'.sprint_name = exTicketA.sprint_name ∧
        r'.sprint_status = exTicketA.sprint_status ∧
        r'.sprint_end_time = exTicketA.sprint_end_time ∧
        r'.things_project = exTicketA.things_project ∧
        r'.synced_to_things = SyncState.notSynced ∧
        r'.last_updated = some 5 ∧
        (save_ticket [exRowA] exTicketA 5).2 = true) ∧
    (findRow ([] : List DBRow) exTicketNew.ticket_id = none ∧
      ∃ r', findRow (save_ticket [] exTicketNew 7).1 exTicketNew.ticket_id = some r' ∧
        r' = insertedRow exTicketNew 7 ∧ r'.synced_to_things = SyncState.notSynced ∧
        r'.last_updated = some 7 ∧
        (save_ticket [] exTicketNew 7).2 = true) :=
  ⟨⟨by decide, by decide,
    (claim5 [exRowA] exTicketA 5).1 exRowA (by decide) (by decide)⟩,
   ⟨by decide, (claim5 [] exTicketNew 7).2 (by decide)⟩⟩

/- ------------------------------------------------------------------ -/
/- C9: a non-empty stored sink id is never overwritten with empty.     -/
/- ------------------------------------------------------------------ -/

/-- C9: if the stored entry's `things_id` is non-empty and the incoming
record supplies none (Python-falsy), every outcome of `save_ticket`
(unchanged or changed) retains the stored `things_id`. -/
theorem claim9 (db : List DBRow) (t : JiraTicket) (now : Nat) (r : DBRow)
    (h : findRow db t.ticket_id = some r)
    (hstored : optFalsy r.things_id = false)
    (hincoming : optFalsy t.things_id = true) :
    ∃ r', findRow (save_ticket db t now).1 t.ticket_id = some r' ∧
      r'.things_id = r.things_id ∧ optFalsy r'.things_id = false := by
  by_cases hc : hasChangesSave r t = true
  · have hid : r.ticket_id = t.ticket_id := findRow_id h
    rw [save_ticket_fst_of_changed now h hc,
      findRow_map _ _ _ (saveUpd_ticket_id t _ now), h]
    refine ⟨updatedRow r t (if optFalsy t.things_id then r.things_id else t.things_id) now,
      ?_, ?_, ?_⟩
    · simp [saveUpd_eq_of_id t _ now hid]
    · simp [updatedRow, hincoming]
    · simp [updatedRow, hincoming, hstored]
  · have hc' : hasChangesSave r t = false := by simpa using hc
    rw [save_ticket_fst_of_unchanged now h hc']
    exact ⟨r, h, rfl, hstored⟩

/-- Witness for `claim9`: the changed save of `exTicketA` (which carries
no `things_id`) over `exRowA` (whose `things_id` is `"ABC"`). -/
theorem claim9_witness :
    findRow [exRowA] exTicketA.ticket_id = some exRowA ∧
    optFalsy exRowA.things_id = false ∧
    optFalsy exTicketA.things_id = true ∧
    ∃ r', findRow (save_ticket [exRowA] exTicketA 5).1 exTicketA.ticket_id = some r' ∧
      r'.things_id = exRowA.things_id ∧ optFalsy r'.things_id = false :=
  ⟨by decide, by decide, by decide,
   claim9 [exRowA] exTicketA 5 exRowA (by decide) (by decide) (by decide)⟩

/- ------------------------------------------------------------------ -/
/- C3: the presence reconciler.                                        -/
/- ------------------------------------------------------------------ -/

theorem forall₂_map_self {P : DBRow → DBRow → Prop} (f : DBRow → DBRow)
    (l : List DBRow) (h : ∀ r ∈ l, P r (f r)) : List.Forall₂ P l (l.map f) := by
  induction l with
  | nil => exact List.Forall₂.nil
  | cons a l ih =>
      exact List.Forall₂.cons (h a (by simp)) (ih (fun r hr => h r (by simp [hr])))

theorem markRow_spec (ids : List String) (r : DBRow) :
    (markRow ids r).present_in_last_fetch = ids.contains r.ticket_id ∧
    (((markRow ids r).present_in_last_fetch ≠ r.present_in_last_fetch ∧
        r.synced_to_things = SyncState.synced) →
      (markRow ids r).synced_to_things = SyncState.notSynced) ∧
    ((r.synced_to_things = SyncState.notSynced ∨ r.synced_to_things = SyncState.unknown) →
      (markRow ids r).synced_to_things = r.synced_to_things) := by
  unfold markRow
  cases hb : ids.contains r.ticket_id <;>
    cases hp : r.present_in_last_fetch <;>
    cases hs : r.synced_to_things <;>
    simp_all

/-- C3: one call to the presence reconciler with a non-empty id set
sets, for every stored entry, `present_in_last_fetch` to membership of
its id in the set; if the flag actually changes value and the prior
`sync_state` was Synced it becomes NotSynced, and a prior NotSynced or
Unknown state is left unchanged. -/
theorem claim3 (db : List DBRow) (issues : List JiraTicket) (h : issues ≠ []) :
    List.Forall₂ (fun r r' =>
      r'.present_in_last_fetch = (issues.map (fun t => t.ticket_id)).contains r.ticket_id ∧
      ((r'.present_in_last_fetch ≠ r.present_in_last_fetch ∧
          r.synced_to_things = SyncState.synced) →
        r'.synced_to_things = SyncState.notSynced) ∧
      ((r.synced_to_things = SyncState.notSynced ∨ r.synced_to_things = SyncState.unknown) →
        r'.synced_to_things = r.synced_to_things))
      db (mark_present db issues) := by
  have heq : mark_present db issues =
      db.map (markRow (issues.map (fun t => t.ticket_id))) := by
    cases issues with
    | nil => exact absurd rfl h
    | cons a l => rfl
  rw [heq]
  exact forall₂_map_self _ db (fun r _ => markRow_spec _ r)

/-- Witness for `claim3`: the stored Synced row `exRowA` is absent from
the fetched id set `["T-2"]`, so its presence flips and it is demoted. -/
theorem claim3_witness :
    ([exTicketNew] : List JiraTicket) ≠ [] ∧
    List.Forall₂ (fun r r' =>
      r'.present_in_last_fetch =
        (([exTicketNew] : List JiraTicket).map (fun t => t.ticket_id)).contains r.ticket_id ∧
      ((r'.present_in_last_fetch ≠ r.present_in_last_fetch ∧
          r.synced_to_things = SyncState.synced) →
        r'.synced_to_things = SyncState.notSynced) ∧
      ((r.synced_to_things = SyncState.notSynced ∨ r.synced_to_things = SyncState.unknown) →
        r'.synced_to_things = r.synced_to_things))
      [exRowA] (mark_present [exRowA] [exTicketNew]) :=
  ⟨by decide, claim3 [exRowA] [exTicketNew] (by decide)⟩

/- ------------------------------------------------------------------ -/
/- C6: the propagation planner.                                        -/
/- ------------------------------------------------------------------ -/

/-- C6: the planner partitions its input by sink id preserving input
order (both halves are sublists of the input): every entry with a
Python-empty `things_id` is routed to the create half and every entry
with a non-empty `things_id` to the update half, and an entry with a
non-empty `things_id` is never in the create half. -/
theorem claim6 (ts : List JiraTicket) (t : JiraTicket) :
    (partitionByThingsId ts).1.Sublist ts ∧
    (partitionByThingsId ts).2.Sublist ts ∧
    (t ∈ ts → optFalsy t.things_id = true → t ∈ (partitionByThingsId ts).1) ∧
    (t ∈ ts → optFalsy t.things_id = false → t ∈ (partitionByThingsId ts).2) ∧
    (optFalsy t.things_id = false → t ∉ (partitionByThingsId ts).1) ∧
    (optFalsy t.things_id = true → t ∉ (partitionByThingsId ts).2) := by
  unfold partitionByThingsId
  refine ⟨List.filter_sublist _, List.filter_sublist _, ?_, ?_, ?_, ?_⟩
  · intro hm hf
    exact List.mem_filter.mpr ⟨hm, hf⟩
  · intro hm hf
    refine List.mem_filter.mpr ⟨hm, ?_⟩
    simp [hf]
  · intro hf hmem
    have hx := (List.mem_filter.mp hmem).2
    rw [hf] at hx
    exact Bool.noConfusion hx
  · intro hf hmem
    have hx := (List.mem_filter.mp hmem).2
    rw [hf] at hx
    exact Bool.noConfusion hx

/-- Witness for `claim6`: a ticket with the non-empty sink id `"ABC"` is
routed to the update half and kept out of the create half. -/
theorem claim6_witness :
    rowToTicket exRowA ∈ [rowToTicket exRowA, exTicketEq] ∧
    optFalsy (rowToTicket exRowA).things_id = false ∧
    rowToTicket exRowA ∈ (partitionByThingsId [rowToTicket exRowA, exTicketEq]).2 ∧
    rowToTicket exRowA ∉ (partitionByThingsId [rowToTicket exRowA, exTicketEq]).1 :=
  ⟨by decide, by decide,
   (claim6 [rowToTicket exRowA, exTicketEq] (rowToTicket exRowA)).2.2.2.1
     (by decide) (by decide),
   (claim6 [rowToTicket exRowA, exTicketEq] (rowToTicket exRowA)).2.2.2.2.1
     (by decide)⟩

/- ------------------------------------------------------------------ -/
/- Machinery for the propagation phase folds.                          -/
/- ------------------------------------------------------------------ -/

theorem foldl_preserve {α β : Type} {P : β → Prop} {f : β → α → β} {l : List α}
    (h : ∀ acc t, t ∈ l → P acc → P (f acc t)) (acc : β) (hP : P acc) :
    P (l.foldl f acc) := by
  induction l generalizing acc with
  | nil => exact hP
  | cons a l ih =>
      exact ih (fun acc' t ht hp => h acc' t (by simp [ht]) hp) _ (h acc a (by simp) hP)

theorem processCreate_of_some (sink : SinkModel) (acc : SyncRes) (t : JiraTicket)
    (thid : Option String) (ha : sink.addTask t = some thid) :
    processCreate sink acc t =
      { db := setSyncAndThingsId acc.db t.ticket_id SyncState.synced thid,
        added := acc.added + 1, updated := acc.updated, failed := acc.failed,
        writes := acc.writes + 1 } := by
  unfold processCreate; rw [ha]

theorem processCreate_of_none (sink : SinkModel) (acc : SyncRes) (t : JiraTicket)
    (ha : sink.addTask t = none) :
    processCreate sink acc t =
      { db := setSyncById acc.db t.ticket_id SyncState.unknown,
        added := acc.added, updated := acc.updated, failed := acc.failed + 1,
        writes := acc.writes + 1 } := by
  unfold processCreate; rw [ha]

theorem processUpdate_of_noauth (sink : SinkModel) (auth : Option String)
    (acc : SyncRes) (t : JiraTicket) (ha : optFalsy auth = true) :
    processUpdate sink auth acc t = { acc with failed := acc.failed + 1 } := by
  unfold processUpdate; simp [ha]

theorem processUpdate_of_ok (sink : SinkModel) (auth : Option String)
    (acc : SyncRes) (t : JiraTicket) (ha : optFalsy auth = false)
    (hu : sink.updateTask t = true) :
    processUpdate sink auth acc t =
      { db := setSyncById acc.db t.ticket_id SyncState.synced,
        added := acc.added, updated := acc.updated + 1, failed := acc.failed,
        writes := acc.writes + 1 } := by
  unfold processUpdate; simp [ha, hu]

theorem processUpdate_of_err (sink : SinkModel) (auth : Option String)
    (acc : SyncRes) (t : JiraTicket) (ha : optFalsy auth = false)
    (hu : sink.updateTask t = false) :
    processUpdate sink auth acc t =
      { db := setSyncById acc.db t.ticket_id SyncState.unknown,
        added := acc.added, updated := acc.updated, failed := acc.failed + 1,
        writes := acc.writes + 1 } := by
  unfold processUpdate; simp [ha, hu]

theorem setSyncById_spec (db : List DBRow) (tid : String) (s : SyncState) {r' : DBRow}
    (h : r' ∈ setSyncById db tid s) :
    ∃ r, r ∈ db ∧ r'.ticket_id = r.ticket_id ∧
      ((r.ticket_id = tid ∧ r' = { r with synced_to_things := s }) ∨
       (r.ticket_id ≠ tid ∧ r' = r)) := by
  obtain ⟨r, hr, hge⟩ := List.mem_map.mp h
  by_cases hcase : r.ticket_id = tid
  · refine ⟨r, hr, ?_, Or.inl ⟨hcase, ?_⟩⟩
    · rw [← hge]; simp [hcase]
    · rw [← hge]; simp [hcase]
  · refine ⟨r, hr, ?_, Or.inr ⟨hcase, ?_⟩⟩
    · rw [← hge]; simp [hcase]
    · rw [← hge]; simp [hcase]

theorem setSyncAndThingsId_spec (db : List DBRow) (tid : String) (s : SyncState)
    (thid : Option String) {r' : DBRow} (h : r' ∈ setSyncAndThingsId db tid s thid) :
    ∃ r, r ∈ db ∧ r'.ticket_id = r.ticket_id ∧
      ((r.ticket_id = tid ∧ r' = { r with synced_to_things := s, things_id := thid }) ∨
       (r.ticket_id ≠ tid ∧ r' = r)) := by
  obtain ⟨r, hr, hge⟩ := List.mem_map.mp h
  by_cases hcase : r.ticket_id = tid
  · refine ⟨r, hr, ?_, Or.inl ⟨hcase, ?_⟩⟩
    · rw [← hge]; simp [hcase]
    · rw [← hge]; simp [hcase]
  · refine ⟨r, hr, ?_, Or.inr ⟨hcase, ?_⟩⟩
    · rw [← hge]; simp [hcase]
    · rw [← hge]; simp [hcase]

theorem setSyncById_mem_id {db : List DBRow} {tid : String} {s : SyncState} {r' : DBRow}
    (h : r' ∈ setSyncById db tid s) (hid : r'.ticket_id = tid) :
    r'.synced_to_things = s := by
  obtain ⟨r, _, _, hc⟩ := setSyncById_spec db tid s h
  rcases hc with ⟨_, hval⟩ | ⟨hne, hval⟩
  · rw [hval]
  · exact absurd (hval ▸ hid) hne

theorem setSyncAndThingsId_mem_id {db : List DBRow} {tid : String} {s : SyncState}
    {thid : Option String} {r' : DBRow} (h : r' ∈ setSyncAndThingsId db tid s thid)
    (hid : r'.ticket_id = tid) :
    r'.synced_to_things = s ∧ r'.things_id = thid := by
  obtain ⟨r, _, _, hc⟩ := setSyncAndThingsId_spec db tid s thid h
  rcases hc with ⟨_, hval⟩ | ⟨hne, hval⟩
  · rw [hval]; exact ⟨rfl, rfl⟩
  · exact absurd (hval ▸ hid) hne

/-- Any row of the table after one create-loop step either is an untouched
row of the previous table, or was written under the processed ticket's id
with state Synced or Unknown. -/
theorem processCreate_mem_cases (sink : SinkModel) (acc : SyncRes) (t : JiraTicket)
    {r' : DBRow} (h : r' ∈ (processCreate sink acc t).db) :
    ∃ r, r ∈ acc.db ∧ r'.ticket_id = r.ticket_id ∧
      (r' = r ∨ (r.ticket_id = t.ticket_id ∧
        (r'.synced_to_things = SyncState.synced ∨
         r'.synced_to_things = SyncState.unknown))) := by
  cases ha : sink.addTask t with
  | some thid =>
      rw [processCreate_of_some sink acc t thid ha] at h
      obtain ⟨r, hr, hid, hc⟩ := setSyncAndThingsId_spec _ _ _ _ h
      rcases hc with ⟨hX, hval⟩ | ⟨_, hval⟩
      · exact ⟨r, hr, hid, Or.inr ⟨hX, Or.inl (by rw [hval])⟩⟩
      · exact ⟨r, hr, hid, Or.inl hval⟩
  | none =>
      rw [processCreate_of_none sink acc t ha] at h
      obtain ⟨r, hr, hid, hc⟩ := setSyncById_spec _ _ _ h
      rcases hc with ⟨hX, hval⟩ | ⟨_, hval⟩
      · exact ⟨r, hr, hid, Or.inr ⟨hX, Or.inr (by rw [hval])⟩⟩
      · exact ⟨r, hr, hid, Or.inl hval⟩

/-- Same as `processCreate_mem_cases` for one update-loop step. -/
theorem processUpdate_mem_cases (sink : SinkModel) (auth : Option String)
    (acc : SyncRes) (t : JiraTicket) {r' : DBRow}
    (h : r' ∈ (processUpdate sink auth acc t).db) :
    ∃ r, r ∈ acc.db ∧ r'.ticket_id = r.ticket_id ∧
      (r' = r ∨ (r.ticket_id = t.ticket_id ∧
        (r'.synced_to_things = SyncState.synced ∨
         r'.synced_to_things = SyncState.unknown))) := by
  cases ha : optFalsy auth with
  | true =>
      rw [processUpdate_of_noauth sink auth acc t ha] at h
      exact ⟨r', h, rfl, Or.inl rfl⟩
  | false =>
      cases hu : sink.updateTask t with
      | true =>
          rw [processUpdate_of_ok sink auth acc t ha hu] at h
          obtain ⟨r, hr, hid, hc⟩ := setSyncById_spec _ _ _ h
          rcases hc with ⟨hX, hval⟩ | ⟨_, hval⟩
          · exact ⟨r, hr, hid, Or.inr ⟨hX, Or.inl (by rw [hval])⟩⟩
          · exact ⟨r, hr, hid, Or.inl hval⟩
      | false =>
          rw [processUpdate_of_err sink auth acc t ha hu] at h
          obtain ⟨r, hr, hid, hc⟩ := setSyncById_spec _ _ _ h
          rcases hc with ⟨hX, hval⟩ | ⟨_, hval⟩
          · exact ⟨r, hr, hid, Or.inr ⟨hX, Or.inr (by rw [hval])⟩⟩
          · exact ⟨r, hr, hid, Or.inl hval⟩

/-- A per-row property of all rows under a fixed id is preserved by a
create-loop step for a different ticket id. -/
theorem processCreate_keeps_other (sink : SinkModel) (acc : SyncRes) (t : JiraTicket)
    (X : String) (hne : t.ticket_id ≠ X) (Φ : DBRow → Prop)
    (hK : ∀ r'' ∈ acc.db, r''.ticket_id = X → Φ r'') :
    ∀ r'' ∈ (processCreate sink acc t).db, r''.ticket_id = X → Φ r'' := by
  intro r'' hmem hid
  obtain ⟨r, hr, hid2, hc⟩ := processCreate_mem_cases sink acc t hmem
  rcases hc with hval | ⟨hX, _⟩
  · exact hval ▸ hK r hr (hid2 ▸ hid)
  · exact absurd (by rw [← hX, ← hid2]; exact hid) hne

/-- Same for an update-loop step. -/
theorem processUpdate_keeps_other (sink : SinkModel) (auth : Option String)
    (acc : SyncRes) (t : JiraTicket) (X : String) (hne : t.ticket_id ≠ X)
    (Φ : DBRow → Prop) (hK : ∀ r'' ∈ acc.db, r''.ticket_id = X → Φ r'') :
    ∀ r'' ∈ (processUpdate sink auth acc t).db, r''.ticket_id = X → Φ r'' := by
  intro r'' hmem hid
  obtain ⟨r, hr, hid2, hc⟩ := processUpdate_mem_cases sink auth acc t hmem
  rcases hc with hval | ⟨hX, _⟩
  · exact hval ▸ hK r hr (hid2 ▸ hid)
  · exact absurd (by rw [← hX, ← hid2]; exact hid) hne

theorem foldl_processCreate_keeps (sink : SinkModel) (ts : List JiraTicket)
    (X : String) (Φ : DBRow → Prop) :
    ∀ acc : SyncRes, (∀ t ∈ ts, t.ticket_id ≠ X) →
      (∀ r'' ∈ acc.db, r''.ticket_id = X → Φ r'') →
      ∀ r'' ∈ (ts.foldl (processCreate sink) acc).db, r''.ticket_id = X → Φ r'' := by
  induction ts with
  | nil => intro acc _ hK; exact hK
  | cons a l ih =>
      intro acc hne hK
      exact ih _ (fun t ht => hne t (List.mem_cons_of_mem a ht))
        (processCreate_keeps_other sink acc a X (hne a (List.mem_cons_self a l)) Φ hK)

theorem foldl_processUpdate_keeps (sink : SinkModel) (auth : Option String)
    (ts : List JiraTicket) (X : String) (Φ : DBRow → Prop) :
    ∀ acc : SyncRes, (∀ t ∈ ts, t.ticket_id ≠ X) →
      (∀ r'' ∈ acc.db, r''.ticket_id = X → Φ r'') →
      ∀ r'' ∈ (ts.foldl (processUpdate sink auth) acc).db, r''.ticket_id = X → Φ r'' := by
  induction ts with
  | nil => intro acc _ hK; exact hK
  | cons a l ih =>
      intro acc hne hK
      exact ih _ (fun t ht => hne t (List.mem_cons_of_mem a ht))
        (processUpdate_keeps_other sink auth acc a X (hne a (List.mem_cons_self a l)) Φ hK)

theorem foldl_processCreate_establish (sink : SinkModel) (ts : List JiraTicket)
    (tc : JiraTicket) (Φ : DBRow → Prop) (htc : tc ∈ ts)
    (hnodup : (ts.map (fun t => t.ticket_id)).Nodup)
    (hest : ∀ acc : SyncRes, ∀ r'' ∈ (processCreate sink acc tc).db,
      r''.ticket_id = tc.ticket_id → Φ r'') :
    ∀ acc : SyncRes, ∀ r'' ∈ (ts.foldl (processCreate sink) acc).db,
      r''.ticket_id = tc.ticket_id → Φ r'' := by
  induction ts with
  | nil => cases htc
  | cons a l ih =>
      intro acc
      obtain ⟨hhead, htail⟩ := List.nodup_cons.mp hnodup
      rcases List.mem_cons.mp htc with heq | hmem
      · subst heq
        refine foldl_processCreate_keeps sink l tc.ticket_id Φ _ ?_ (hest acc)
        intro t ht hteq
        apply hhead
        show tc.ticket_id ∈ List.map (fun t => t.ticket_id) l
        rw [← hteq]
        exact List.mem_map_of_mem _ ht
      · exact ih hmem htail (processCreate sink acc a)

theorem foldl_processUpdate_establish (sink : SinkModel) (auth : Option String)
    (ts : List JiraTicket) (tc : JiraTicket) (Φ : DBRow → Prop) (htc : tc ∈ ts)
    (hnodup : (ts.map (fun t => t.ticket_id)).Nodup)
    (hest : ∀ acc : SyncRes, ∀ r'' ∈ (processUpdate sink auth acc tc).db,
      r''.ticket_id = tc.ticket_id → Φ r'') :
    ∀ acc : SyncRes, ∀ r'' ∈ (ts.foldl (processUpdate sink auth) acc).db,
      r''.ticket_id = tc.ticket_id → Φ r'' := by
  induction ts with
  | nil => cases htc
  | cons a l ih =>
      intro acc
      obtain ⟨hhead, htail⟩ := List.nodup_cons.mp hnodup
      rcases List.mem_cons.mp htc with heq | hmem
      · subst heq
        refine foldl_processUpdate_keeps sink auth l tc.ticket_id Φ _ ?_ (hest acc)
        intro t ht hteq
        apply hhead
        show tc.ticket_id ∈ List.map (fun t => t.ticket_id) l
        rw [← hteq]
        exact List.mem_map_of_mem _ ht
      · exact ih hmem htail (processUpdate sink auth acc a)

theorem processCreate_counts (sink : SinkModel) (acc : SyncRes) (t : JiraTicket) :
    (processCreate sink acc t).added
        = acc.added + (if (sink.addTask t).isSome then 1 else 0) ∧
    (processCreate sink acc t).updated = acc.updated ∧
    (processCreate sink acc t).failed
        = acc.failed + (if (sink.addTask t).isNone then 1 else 0) ∧
    (processCreate sink acc t).writes = acc.writes + 1 := by
  cases ha : sink.addTask t with
  | some thid => rw [processCreate_of_some sink acc t thid ha]; simp [ha]
  | none => rw [processCreate_of_none sink acc t ha]; simp [ha]

theorem processUpdate_counts (sink : SinkModel) (auth : Option String)
    (acc : SyncRes) (t : JiraTicket) :
    (processUpdate sink auth acc t).added = acc.added ∧
    (processUpdate sink auth acc t).updated
        = acc.updated + (if !optFalsy auth && sink.updateTask t then 1 else 0) ∧
    (processUpdate sink auth acc t).failed
        = acc.failed + (if optFalsy auth || !sink.updateTask t then 1 else 0) ∧
    (processUpdate sink auth acc t).writes
        = acc.writes + (if optFalsy auth then 0 else 1) := by
  cases ha : optFalsy auth with
  | true => rw [processUpdate_of_noauth sink auth acc t ha]; simp [ha]
  | false =>
      cases hu : sink.updateTask t with
      | true => rw [processUpdate_of_ok sink auth acc t ha hu]; simp [ha, hu]
      | false => rw [processUpdate_of_err sink auth acc t ha hu]; simp [ha, hu]

theorem foldl_processCreate_counts (sink : SinkModel) (ts : List JiraTicket) :
    ∀ acc : SyncRes,
      (ts.foldl (processCreate sink) acc).added
          = acc.added + ts.countP (fun t => (sink.addTask t).isSome) ∧
      (ts.foldl (processCreate sink) acc).updated = acc.updated ∧
      (ts.foldl (processCreate sink) acc).failed
          = acc.failed + ts.countP (fun t => (sink.addTask t).isNone) ∧
      (ts.foldl (processCreate sink) acc).writes = acc.writes + ts.length := by
  induction ts with
  | nil => intro acc; simp
  | cons a l ih =>
      intro acc
      obtain ⟨h1, h2, h3, h4⟩ := ih (processCreate sink acc a)
      obtain ⟨g1, g2, g3, g4⟩ := processCreate_counts sink acc a
      refine ⟨?_, ?_, ?_, ?_⟩
      · rw [List.foldl_cons, h1, g1, List.countP_cons]
        cases hb : (sink.addTask a).isSome <;> simp [hb] <;> omega
      · rw [List.foldl_cons, h2, g2]
      · rw [List.foldl_cons, h3, g3, List.countP_cons]
        cases hb : (sink.addTask a).isNone <;> simp [hb] <;> omega
      · rw [List.foldl_cons, h4, g4, List.length_cons]
        omega

theorem foldl_processUpdate_counts (sink : SinkModel) (auth : Option String)
    (ts : List JiraTicket) :
    ∀ acc : SyncRes,
      (ts.foldl (processUpdate sink auth) acc).added = acc.added ∧
      (ts.foldl (processUpdate sink auth) acc).updated
          = acc.updated + ts.countP (fun t => !optFalsy auth && sink.updateTask t) ∧
      (ts.foldl (processUpdate sink auth) acc).failed
          = acc.failed + ts.countP (fun t => optFalsy auth || !sink.updateTask t) ∧
      (ts.foldl (processUpdate sink auth) acc).writes
          = acc.writes + ts.countP (fun _ => !optFalsy auth) := by
  induction ts with
  | nil => intro acc; simp
  | cons a l ih =>
      intro acc
      obtain ⟨h1, h2, h3, h4⟩ := ih (processUpdate sink auth acc a)
      obtain ⟨g1, g2, g3, g4⟩ := processUpdate_counts sink auth acc a
      refine ⟨?_, ?_, ?_, ?_⟩
      · rw [List.foldl_cons, h1, g1]
      · rw [List.foldl_cons, h2, g2, List.countP_cons]
        cases hb : (!optFalsy auth && sink.updateTask a) <;> simp [hb] <;> omega
      · rw [List.foldl_cons, h3, g3, List.countP_cons]
        cases hb : (optFalsy auth || !sink.updateTask a) <;> simp [hb] <;> omega
      · rw [List.foldl_cons, h4, g4, List.countP_cons]
        cases hb : optFalsy auth <;> simp [hb] <;> omega

theorem mem_get_unsynced {db : List DBRow} {r : DBRow} (hr : r ∈ db)
    (hs : r.synced_to_things = SyncState.notSynced) :
    rowToTicket r ∈ get_unsynced_tickets db := by
  unfold get_unsynced_tickets
  exact List.mem_map_of_mem _ (List.mem_filter.mpr ⟨hr, by simp [hs]⟩)

theorem get_unsynced_ne_empty {db : List DBRow} {r : DBRow} (hr : r ∈ db)
    (hs : r.synced_to_things = SyncState.notSynced) :
    (get_unsynced_tickets db).isEmpty = false := by
  have hmem := mem_get_unsynced hr hs
  cases hl : get_unsynced_tickets db with
  | nil => rw [hl] at hmem; cases hmem
  | cons a l => rfl

theorem sync_to_things_of_empty (sink : SinkModel) (auth : Option String)
    (db : List DBRow) (h : (get_unsynced_tickets db).isEmpty = true) :
    sync_to_things sink auth db = ⟨db, 0, 0, 0, 0⟩ := by
  unfold sync_to_things; rw [h, if_pos rfl]

theorem sync_to_things_of_ne (sink : SinkModel) (auth : Option String)
    (db : List DBRow) (h : (get_unsynced_tickets db).isEmpty = false) :
    sync_to_things sink auth db =
      (partitionByThingsId (get_unsynced_tickets db)).2.foldl (processUpdate sink auth)
        ((partitionByThingsId (get_unsynced_tickets db)).1.foldl (processCreate sink)
          ⟨db, 0, 0, 0, 0⟩) := by
  unfold sync_to_things; rw [h, if_neg Bool.false_ne_true]

theorem get_all_ne_empty {db : List DBRow} {r : DBRow} (hr : r ∈ db) :
    (get_all_tickets db).isEmpty = false := by
  have hmem : rowToTicket r ∈ get_all_tickets db := List.mem_map_of_mem _ hr
  cases hl : get_all_tickets db with
  | nil => rw [hl] at hmem; cases hmem
  | cons a l => rfl

theorem resync_to_things_of_ne (sink : SinkModel) (auth : Option String)
    (db : List DBRow) (h : (get_all_tickets db).isEmpty = false) :
    resync_to_things sink auth db =
      (partitionByThingsId (get_all_tickets db)).2.foldl (processUpdate sink auth)
        ((partitionByThingsId (get_all_tickets db)).1.foldl (processCreate sink)
          ⟨db, 0, 0, 0, 0⟩) := by
  unfold resync_to_things; rw [h, if_neg Bool.false_ne_true]

theorem get_unsynced_ids_nodup {db : List DBRow}
    (h : (db.map (fun r => r.ticket_id)).Nodup) :
    ((get_unsynced_tickets db).map (fun t => t.ticket_id)).Nodup := by
  unfold get_unsynced_tickets
  rw [List.map_map]
  exact (((List.filter_sublist db).map (fun r => r.ticket_id))).nodup h

theorem get_all_ids_nodup {db : List DBRow}
    (h : (db.map (fun r => r.ticket_id)).Nodup) :
    ((get_all_tickets db).map (fun t => t.ticket_id)).Nodup := by
  unfold get_all_tickets
  rw [List.map_map]
  exact h

theorem partition_fst_ids_nodup {ts : List JiraTicket}
    (h : (ts.map (fun t => t.ticket_id)).Nodup) :
    (((partitionByThingsId ts).1).map (fun t => t.ticket_id)).Nodup :=
  (((List.filter_sublist ts).map (fun t => t.ticket_id))).nodup h

theorem partition_snd_ids_nodup {ts : List JiraTicket}
    (h : (ts.map (fun t => t.ticket_id)).Nodup) :
    (((partitionByThingsId ts).2).map (fun t => t.ticket_id)).Nodup :=
  (((List.filter_sublist ts).map (fun t => t.ticket_id))).nodup h

/-- Under distinct ids, a ticket of the update half never shares its id
with a ticket of the create half. -/
theorem partition_ids_ne {ts : List JiraTicket}
    (h : (ts.map (fun t => t.ticket_id)).Nodup)
    {tc tu : JiraTicket} (hc : tc ∈ (partitionByThingsId ts).1)
    (hu : tu ∈ (partitionByThingsId ts).2) :
    tu.ticket_id ≠ tc.ticket_id := by
  intro heq
  have hc2 := List.mem_filter.mp hc
  have hu2 := List.mem_filter.mp hu
  have hteq : tc = tu := List.inj_on_of_nodup_map h hc2.1 hu2.1 heq.symm
  have hfalsy := hc2.2
  rw [hteq] at hfalsy
  rw [hfalsy] at hu2
  exact Bool.noConfusion hu2.2

theorem rowToTicket_ticket_id (r : DBRow) : (rowToTicket r).ticket_id = r.ticket_id := rfl

theorem rowToTicket_things_id (r : DBRow) : (rowToTicket r).things_id = r.things_id := rfl

theorem processCreate_fail_all_unknown (sink : SinkModel) (t : JiraTicket)
    (ha : sink.addTask t = none) :
    ∀ acc : SyncRes, ∀ r'' ∈ (processCreate sink acc t).db,
      r''.ticket_id = t.ticket_id → r''.synced_to_things = SyncState.unknown := by
  intro acc r'' hmem hid
  rw [processCreate_of_none sink acc t ha] at hmem
  exact setSyncById_mem_id hmem hid

theorem processCreate_ok_all_synced (sink : SinkModel) (t : JiraTicket)
    (thid : Option String) (ha : sink.addTask t = some thid) :
    ∀ acc : SyncRes, ∀ r'' ∈ (processCreate sink acc t).db,
      r''.ticket_id = t.ticket_id →
        r''.synced_to_things = SyncState.synced ∧ r''.things_id = thid := by
  intro acc r'' hmem hid
  rw [processCreate_of_some sink acc t thid ha] at hmem
  exact setSyncAndThingsId_mem_id hmem hid

theorem processUpdate_err_all_unknown (sink : SinkModel) (auth : Option String)
    (t : JiraTicket) (ha : optFalsy auth = false) (hu : sink.updateTask t = false) :
    ∀ acc : SyncRes, ∀ r'' ∈ (processUpdate sink auth acc t).db,
      r''.ticket_id = t.ticket_id → r''.synced_to_things = SyncState.unknown := by
  intro acc r'' hmem hid
  rw [processUpdate_of_err sink auth acc t ha hu] at hmem
  exact setSyncById_mem_id hmem hid

theorem countP_isSome_add_isNone (sink : SinkModel) (ts : List JiraTicket) :
    ts.countP (fun t => (sink.addTask t).isSome) +
      ts.countP (fun t => (sink.addTask t).isNone) = ts.length := by
  induction ts with
  | nil => rfl
  | cons a l ih =>
      rw [List.countP_cons, List.countP_cons, List.length_cons]
      cases ha : sink.addTask a <;> simp [ha] <;> omega

theorem countP_upd_split (sink : SinkModel) (auth : Option String)
    (ts : List JiraTicket) :
    ts.countP (fun t => !optFalsy auth && sink.updateTask t) +
      ts.countP (fun t => optFalsy auth || !sink.updateTask t) = ts.length := by
  induction ts with
  | nil => rfl
  | cons a l ih =>
      rw [List.countP_cons, List.countP_cons, List.length_cons]
      have hone : (if !optFalsy auth && sink.updateTask a then 1 else 0) +
          (if optFalsy auth || !sink.updateTask a then 1 else 0) = 1 := by
        cases ha : optFalsy auth <;> cases hu : sink.updateTask a <;> simp [ha, hu]
      omega

theorem countP_upd_noauth (sink : SinkModel) (auth : Option String)
    (ts : List JiraTicket) (ha : optFalsy auth = true) :
    ts.countP (fun t => optFalsy auth || !sink.updateTask t) = ts.length := by
  induction ts with
  | nil => rfl
  | cons a l ih =>
      rw [List.countP_cons, List.length_cons, ih]
      simp [ha]

theorem partition_length (ts : List JiraTicket) :
    (partitionByThingsId ts).1.length + (partitionByThingsId ts).2.length
      = ts.length := by
  show (ts.filter (fun t => optFalsy t.things_id)).length +
      (ts.filter (fun t => !optFalsy t.things_id)).length = ts.length
  induction ts with
  | nil => rfl
  | cons a l ih =>
      rw [List.filter_cons, List.filter_cons, List.length_cons]
      cases hb : optFalsy a.things_id <;> simp [hb] <;> omega

theorem foldl_processUpdate_noauth_db (sink : SinkModel) (auth : Option String)
    (ha : optFalsy auth = true) (ts : List JiraTicket) :
    ∀ acc : SyncRes, (ts.foldl (processUpdate sink auth) acc).db = acc.db := by
  induction ts with
  | nil => intro acc; rfl
  | cons a l ih =>
      intro acc
      rw [List.foldl_cons, ih, processUpdate_of_noauth sink auth acc a ha]

theorem foldl_processUpdate_noauth_eq (sink sink2 : SinkModel) (auth : Option String)
    (ha : optFalsy auth = true) (ts : List JiraTicket) :
    ∀ acc : SyncRes, ts.foldl (processUpdate sink2 auth) acc
      = ts.foldl (processUpdate sink auth) acc := by
  induction ts with
  | nil => intro acc; rfl
  | cons a l ih =>
      intro acc
      rw [List.foldl_cons, List.foldl_cons, processUpdate_of_noauth sink2 auth acc a ha,
        processUpdate_of_noauth sink auth acc a ha, ih]

/- ------------------------------------------------------------------ -/
/- C7: per-entry failure handling in the propagation batch.            -/
/- ------------------------------------------------------------------ -/

/-- C7: in a propagation run over a table with distinct ids, an entry
whose create call raises, and an entry whose update call raises (with an
auth token present), end with `sync_state` Unknown; the failed counter
tallies exactly the create failures plus the update failures/skips, and
no entry aborts the batch: added + updated + failed accounts for every
selected entry. -/
theorem claim7 (sink : SinkModel) (auth : Option String) (db : List DBRow)
    (hnodup : (db.map (fun r => r.ticket_id)).Nodup) :
    (∀ r ∈ db, r.synced_to_things = SyncState.notSynced →
      optFalsy r.things_id = true → sink.addTask (rowToTicket r) = none →
      ∀ r' ∈ (sync_to_things sink auth db).db, r'.ticket_id = r.ticket_id →
        r'.synced_to_things = SyncState.unknown) ∧
    (∀ r ∈ db, r.synced_to_things = SyncState.notSynced →
      optFalsy r.things_id = false → optFalsy auth = false →
      sink.updateTask (rowToTicket r) = false →
      ∀ r' ∈ (sync_to_things sink auth db).db, r'.ticket_id = r.ticket_id →
        r'.synced_to_things = SyncState.unknown) ∧
    ((sync_to_things sink auth db).failed =
      (partitionByThingsId (get_unsynced_tickets db)).1.countP
        (fun t => (sink.addTask t).isNone) +
      (partitionByThingsId (get_unsynced_tickets db)).2.countP
        (fun t => optFalsy auth || !sink.updateTask t)) ∧
    ((sync_to_things sink auth db).added + (sync_to_things sink auth db).updated +
      (sync_to_things sink auth db).failed = (get_unsynced_tickets db).length) := by
  refine ⟨?_, ?_, ?_, ?_⟩
  · intro r hr hs hfalsy hfail r' hmem hid
    have hnonempty := get_unsynced_ne_empty hr hs
    rw [sync_to_things_of_ne sink auth db hnonempty] at hmem
    have hnodupU := get_unsynced_ids_nodup hnodup
    have htc : rowToTicket r ∈ (partitionByThingsId (get_unsynced_tickets db)).1 :=
      List.mem_filter.mpr ⟨mem_get_unsynced hr hs, by simp [rowToTicket, hfalsy]⟩
    have hafter := foldl_processCreate_establish sink _ (rowToTicket r)
      (fun r'' => r''.synced_to_things = SyncState.unknown) htc
      (partition_fst_ids_nodup hnodupU)
      (processCreate_fail_all_unknown sink (rowToTicket r) hfail)
      ⟨db, 0, 0, 0, 0⟩
    exact foldl_processUpdate_keeps sink auth _ (rowToTicket r).ticket_id
      (fun r'' => r''.synced_to_things = SyncState.unknown) _
      (fun tu htu => partition_ids_ne hnodupU htc htu)
      hafter r' hmem hid
  · intro r hr hs hnfalsy hauth hufail r' hmem hid
    have hnonempty := get_unsynced_ne_empty hr hs
    rw [sync_to_things_of_ne sink auth db hnonempty] at hmem
    have hnodupU := get_unsynced_ids_nodup hnodup
    have htu : rowToTicket r ∈ (partitionByThingsId (get_unsynced_tickets db)).2 :=
      List.mem_filter.mpr ⟨mem_get_unsynced hr hs, by simp [rowToTicket, hnfalsy]⟩
    exact foldl_processUpdate_establish sink auth _ (rowToTicket r)
      (fun r'' => r''.synced_to_things = SyncState.unknown) htu
      (partition_snd_ids_nodup hnodupU)
      (processUpdate_err_all_unknown sink auth (rowToTicket r) hauth hufail)
      _ r' hmem hid
  · cases hemp : (get_unsynced_tickets db).isEmpty with
    | true =>
        rw [sync_to_things_of_empty sink auth db hemp]
        have hnil : get_unsynced_tickets db = [] := by
          cases hl : get_unsynced_tickets db with
          | nil => rfl
          | cons a l => rw [hl] at hemp; cases hemp
        rw [hnil]
        rfl
    | false =>
        rw [sync_to_things_of_ne sink auth db hemp]
        obtain ⟨c1, c2, c3, c4⟩ := foldl_processCreate_counts sink
          (partitionByThingsId (get_unsynced_tickets db)).1 ⟨db, 0, 0, 0, 0⟩
        obtain ⟨u1, u2, u3, u4⟩ := foldl_processUpdate_counts sink auth
          (partitionByThingsId (get_unsynced_tickets db)).2
          ((partitionByThingsId (get_unsynced_tickets db)).1.foldl
            (processCreate sink) ⟨db, 0, 0, 0, 0⟩)
        have hzf : ({ db := db, added := 0, updated := 0, failed := 0, writes := 0 } : SyncRes).failed = 0 := rfl
        rw [u3, c3, hzf]
        omega
  · cases hemp : (get_unsynced_tickets db).isEmpty with
    | true =>
        rw [sync_to_things_of_empty sink auth db hemp]
        have hnil : get_unsynced_tickets db = [] := by
          cases hl : get_unsynced_tickets db with
          | nil => rfl
          | cons a l => rw [hl] at hemp; cases hemp
        rw [hnil]
        rfl
    | false =>
        rw [sync_to_things_of_ne sink auth db hemp]
        obtain ⟨c1, c2, c3, c4⟩ := foldl_processCreate_counts sink
          (partitionByThingsId (get_unsynced_tickets db)).1 ⟨db, 0, 0, 0, 0⟩
        obtain ⟨u1, u2, u3, u4⟩ := foldl_processUpdate_counts sink auth
          (partitionByThingsId (get_unsynced_tickets db)).2
          ((partitionByThingsId (get_unsynced_tickets db)).1.foldl
            (processCreate sink) ⟨db, 0, 0, 0, 0⟩)
        have hza : ({ db := db, added := 0, updated := 0, failed := 0, writes := 0 } : SyncRes).added = 0 := rfl
        have hzu : ({ db := db, added := 0, updated := 0, failed := 0, writes := 0 } : SyncRes).updated = 0 := rfl
        have hzf : ({ db := db, added := 0, updated := 0, failed := 0, writes := 0 } : SyncRes).failed = 0 := rfl
        rw [u1, u2, u3, c1, c2, c3, hza, hzu, hzf]
        have hc := countP_isSome_add_isNone sink
          (partitionByThingsId (get_unsynced_tickets db)).1
        have hu := countP_upd_split sink auth
          (partitionByThingsId (get_unsynced_tickets db)).2
        have hl := partition_length (get_unsynced_tickets db)
        omega

/-- Witness for `claim7`: over a table with a single create-routed entry
and a single update-routed entry, a sink that raises on every call and a
configured auth token leave both entries Unknown, with 2 failures and
2 = 0 + 0 + 2 entries accounted for. -/
theorem claim7_witness :
    (([exRowUnsynced, exRowUnsyncedU].map (fun r => r.ticket_id)).Nodup ∧
     exRowUnsynced.synced_to_things = SyncState.notSynced ∧
     optFalsy exRowUnsynced.things_id = true ∧
     exSinkFail.addTask (rowToTicket exRowUnsynced) = none ∧
     ∀ r' ∈ (sync_to_things exSinkFail (some "tok") [exRowUnsynced, exRowUnsyncedU]).db,
       r'.ticket_id = exRowUnsynced.ticket_id →
       r'.synced_to_things = SyncState.unknown) ∧
    (exRowUnsyncedU.synced_to_things = SyncState.notSynced ∧
     optFalsy exRowUnsyncedU.things_id = false ∧
     optFalsy (some "tok") = false ∧
     exSinkFail.updateTask (rowToTicket exRowUnsyncedU) = false ∧
     ∀ r' ∈ (sync_to_things exSinkFail (some "tok") [exRowUnsynced, exRowUnsyncedU]).db,
       r'.ticket_id = exRowUnsyncedU.ticket_id →
       r'.synced_to_things = SyncState.unknown) ∧
    (sync_to_things exSinkFail (some "tok") [exRowUnsynced, exRowUnsyncedU]).added +
      (sync_to_things exSinkFail (some "tok") [exRowUnsynced, exRowUnsyncedU]).updated +
      (sync_to_things exSinkFail (some "tok") [exRowUnsynced, exRowUnsyncedU]).failed =
      (get_unsynced_tickets [exRowUnsynced, exRowUnsyncedU]).length :=
  ⟨⟨by decide, by decide, by decide, by decide,
    (claim7 exSinkFail (some "tok") [exRowUnsynced, exRowUnsyncedU] (by decide)).1
      exRowUnsynced (by decide) (by decide) (by decide) (by decide)⟩,
   ⟨by decide, by decide, by decide, by decide,
    (claim7 exSinkFail (some "tok") [exRowUnsynced, exRowUnsyncedU] (by decide)).2.1
      exRowUnsyncedU (by decide) (by decide) (by decide) (by decide) (by decide)⟩,
   (claim7 exSinkFail (some "tok") [exRowUnsynced, exRowUnsyncedU] (by decide)).2.2.2⟩

/- ------------------------------------------------------------------ -/
/- C8: missing auth token on the update route.                         -/
/- ------------------------------------------------------------------ -/

/-- C8: with no auth token configured, every entry routed to the update
loop is skipped: its stored row is entirely untouched (so `sync_state`
is neither demoted to Unknown nor promoted to Synced), it is counted in
the failed tally (the whole update half is failed), and no update
network call is made — the run's outcome does not depend on the sink's
update behaviour at all. -/
theorem claim8 (sink : SinkModel) (auth : Option String) (db : List DBRow)
    (hauth : optFalsy auth = true)
    (hnodup : (db.map (fun r => r.ticket_id)).Nodup) :
    (∀ r ∈ db, r.synced_to_things = SyncState.notSynced →
      optFalsy r.things_id = false →
      ∀ r' ∈ (sync_to_things sink auth db).db, r'.ticket_id = r.ticket_id → r' = r) ∧
    ((sync_to_things sink auth db).failed =
      (partitionByThingsId (get_unsynced_tickets db)).1.countP
        (fun t => (sink.addTask t).isNone) +
      (partitionByThingsId (get_unsynced_tickets db)).2.length) ∧
    (∀ sink2 : SinkModel, sink2.addTask = sink.addTask →
      sync_to_things sink2 auth db = sync_to_things sink auth db) := by
  refine ⟨?_, ?_, ?_⟩
  · intro r hr hs hnfalsy r' hmem hid
    have hnonempty := get_unsynced_ne_empty hr hs
    rw [sync_to_things_of_ne sink auth db hnonempty] at hmem
    have hnodupU := get_unsynced_ids_nodup hnodup
    have htu : rowToTicket r ∈ (partitionByThingsId (get_unsynced_tickets db)).2 :=
      List.mem_filter.mpr ⟨mem_get_unsynced hr hs, by simp [rowToTicket, hnfalsy]⟩
    rw [foldl_processUpdate_noauth_db sink auth hauth _ _] at hmem
    have hbase : ∀ r'' ∈ ((⟨db, 0, 0, 0, 0⟩ : SyncRes)).db,
        r''.ticket_id = r.ticket_id → r'' = r := by
      intro r'' hr2 hid2
      exact List.inj_on_of_nodup_map hnodup hr2 hr hid2
    exact foldl_processCreate_keeps sink _ r.ticket_id (fun r'' => r'' = r)
      ⟨db, 0, 0, 0, 0⟩
      (fun t ht => Ne.symm (by
        have := partition_ids_ne hnodupU ht htu
        exact this))
      hbase r' hmem hid
  · rw [(claim7 sink auth db hnodup).2.2.1,
      countP_upd_noauth sink auth _ hauth]
  · intro sink2 hadd
    have hpc : processCreate sink2 = processCreate sink := by
      funext acc t
      unfold processCreate
      rw [hadd]
    cases hemp : (get_unsynced_tickets db).isEmpty with
    | true =>
        rw [sync_to_things_of_empty sink auth db hemp,
          sync_to_things_of_empty sink2 auth db hemp]
    | false =>
        rw [sync_to_things_of_ne sink auth db hemp,
          sync_to_things_of_ne sink2 auth db hemp, hpc,
          foldl_processUpdate_noauth_eq sink sink2 auth hauth _ _]

/-- Witness for `claim8`: with auth `none`, the update-routed entry
`exRowUnsyncedU` is untouched, the failed tally covers the whole update
half, and swapping in an always-succeeding update behaviour changes
nothing. -/
theorem claim8_witness :
    optFalsy (none : Option String) = true ∧
    (([exRowUnsynced, exRowUnsyncedU].map (fun r => r.ticket_id)).Nodup ∧
     exRowUnsyncedU.synced_to_things = SyncState.notSynced ∧
     optFalsy exRowUnsyncedU.things_id = false ∧
     (∀ r' ∈ (sync_to_things exSinkFail none [exRowUnsynced, exRowUnsyncedU]).db,
       r'.ticket_id = exRowUnsyncedU.ticket_id → r' = exRowUnsyncedU)) ∧
    (sync_to_things exSinkFail none [exRowUnsynced, exRowUnsyncedU]).failed =
      (partitionByThingsId
        (get_unsynced_tickets [exRowUnsynced, exRowUnsyncedU])).1.countP
        (fun t => (exSinkFail.addTask t).isNone) +
      (partitionByThingsId
        (get_unsynced_tickets [exRowUnsynced, exRowUnsyncedU])).2.length ∧
    sync_to_things ⟨exSinkFail.addTask, fun _ => true⟩ none
        [exRowUnsynced, exRowUnsyncedU] =
      sync_to_things exSinkFail none [exRowUnsynced, exRowUnsyncedU] :=
  ⟨by decide,
   ⟨by decide, by decide, by decide,
    (claim8 exSinkFail none [exRowUnsynced, exRowUnsyncedU] (by decide) (by decide)).1
      exRowUnsyncedU (by decide) (by decide) (by decide)⟩,
   (claim8 exSinkFail none [exRowUnsynced, exRowUnsyncedU] (by decide) (by decide)).2.1,
   (claim8 exSinkFail none [exRowUnsynced, exRowUnsyncedU] (by decide) (by decide)).2.2
     ⟨exSinkFail.addTask, fun _ => true⟩ rfl⟩

/- ------------------------------------------------------------------ -/
/- C10: successful create persists Synced with the returned id.        -/
/- ------------------------------------------------------------------ -/

/-- C10: in both propagation entry points, an entry routed to create
whose AddTask call raises no error is persisted with `sync_state` Synced
and `things_id` set to exactly the identifier carried by the sink
response — including the absent identifier (`none`), which leaves the
entry Synced with an empty sink id. -/
theorem claim10 (sink : SinkModel) (auth : Option String) (db : List DBRow)
    (hnodup : (db.map (fun r => r.ticket_id)).Nodup) :
    (∀ r ∈ db, r.synced_to_things = SyncState.notSynced →
      optFalsy r.things_id = true →
      ∀ thid, sink.addTask (rowToTicket r) = some thid →
      ∀ r' ∈ (sync_to_things sink auth db).db, r'.ticket_id = r.ticket_id →
        r'.synced_to_things = SyncState.synced ∧ r'.things_id = thid) ∧
    (∀ r ∈ db, optFalsy r.things_id = true →
      ∀ thid, sink.addTask (rowToTicket r) = some thid →
      ∀ r' ∈ (resync_to_things sink auth db).db, r'.ticket_id = r.ticket_id →
        r'.synced_to_things = SyncState.synced ∧ r'.things_id = thid) := by
  constructor
  · intro r hr hs hfalsy thid hok r' hmem hid
    have hnonempty := get_unsynced_ne_empty hr hs
    rw [sync_to_things_of_ne sink auth db hnonempty] at hmem
    have hnodupU := get_unsynced_ids_nodup hnodup
    have htc : rowToTicket r ∈ (partitionByThingsId (get_unsynced_tickets db)).1 :=
      List.mem_filter.mpr ⟨mem_get_unsynced hr hs, by simp [rowToTicket, hfalsy]⟩
    have hafter := foldl_processCreate_establish sink _ (rowToTicket r)
      (fun r'' => r''.synced_to_things = SyncState.synced ∧ r''.things_id = thid) htc
      (partition_fst_ids_nodup hnodupU)
      (processCreate_ok_all_synced sink (rowToTicket r) thid hok)
      ⟨db, 0, 0, 0, 0⟩
    exact foldl_processUpdate_keeps sink auth _ (rowToTicket r).ticket_id
      (fun r'' => r''.synced_to_things = SyncState.synced ∧ r''.things_id = thid) _
      (fun tu htu => partition_ids_ne hnodupU htc htu)
      hafter r' hmem hid
  · intro r hr hfalsy thid hok r' hmem hid
    have hnonempty := get_all_ne_empty hr
    rw [resync_to_things_of_ne sink auth db hnonempty] at hmem
    have hnodupA := get_all_ids_nodup hnodup
    have htc : rowToTicket r ∈ (partitionByThingsId (get_all_tickets db)).1 :=
      List.mem_filter.mpr ⟨List.mem_map_of_mem _ hr, by simp [rowToTicket, hfalsy]⟩
    have hafter := foldl_processCreate_establish sink _ (rowToTicket r)
      (fun r'' => r''.synced_to_things = SyncState.synced ∧ r''.things_id = thid) htc
      (partition_fst_ids_nodup hnodupA)
      (processCreate_ok_all_synced sink (rowToTicket r) thid hok)
      ⟨db, 0, 0, 0, 0⟩
    exact foldl_processUpdate_keeps sink auth _ (rowToTicket r).ticket_id
      (fun r'' => r''.synced_to_things = SyncState.synced ∧ r''.things_id = thid) _
      (fun tu htu => partition_ids_ne hnodupA htc htu)
      hafter r' hmem hid

/-- Witness for `claim10`: the sink accepts the create but returns no
identifier, leaving `exRowUnsynced` Synced with an empty `things_id`. -/
theorem claim10_witness :
    (([exRowUnsynced].map (fun r => r.ticket_id)).Nodup ∧
     exRowUnsynced.synced_to_things = SyncState.notSynced ∧
     optFalsy exRowUnsynced.things_id = true ∧
     exSinkOkNone.addTask (rowToTicket exRowUnsynced) = some none ∧
     ∀ r' ∈ (sync_to_things exSinkOkNone (some "tok") [exRowUnsynced]).db,
       r'.ticket_id = exRowUnsynced.ticket_id →
       r'.synced_to_things = SyncState.synced ∧ r'.things_id = none) :=
  ⟨by decide, by decide, by decide, by decide,
   (claim10 exSinkOkNone (some "tok") [exRowUnsynced] (by decide)).1
     exRowUnsynced (by decide) (by decide) (by decide) none (by decide)⟩

/- ------------------------------------------------------------------ -/
/- Machinery for the mirror update phase (C2, C4).                     -/
/- ------------------------------------------------------------------ -/

theorem update_db_of_empty (db : List DBRow) (qs : List (Option String × List JiraTicket))
    (now : Nat) (h : (flattenIssues qs).isEmpty = true) :
    update_db db qs now = ⟨db, 0, 0, 0, 0⟩ := by
  unfold update_db; rw [h, if_pos rfl]

theorem update_db_of_ne (db : List DBRow) (qs : List (Option String × List JiraTicket))
    (now : Nat) (h : (flattenIssues qs).isEmpty = false) :
    update_db db qs now = (flattenIssues qs).foldl (processIssue now) ⟨db, 0, 0, 0, 0⟩ := by
  unfold update_db; rw [h, if_neg Bool.false_ne_true]

theorem processIssue_db (now : Nat) (acc : UpdRes) (t : JiraTicket) :
    (processIssue now acc t).db = (save_ticket acc.db t now).1 := by
  unfold processIssue
  cases hf : findRow acc.db t.ticket_id with
  | some ex =>
      by_cases hc : hasChangesMain ex t = true
      · simp [hc]
      · simp [hc]
  | none => rfl

theorem processIssue_eq_of_found (now : Nat) (acc : UpdRes) (t : JiraTicket) (r : DBRow)
    (hfind : findRow acc.db t.ticket_id = some r) :
    processIssue now acc t =
      if hasChangesMain r t then
        { db := (save_ticket acc.db t now).1, added := acc.added,
          updated := acc.updated + 1, unchanged := acc.unchanged,
          writes := acc.writes + (if (save_ticket acc.db t now).2 then 1 else 0) }
      else
        { db := (save_ticket acc.db t now).1, added := acc.added,
          updated := acc.updated, unchanged := acc.unchanged + 1,
          writes := acc.writes + (if (save_ticket acc.db t now).2 then 1 else 0) } := by
  unfold processIssue
  rw [hfind]

theorem hasChangesMain_of_saveFalse {r : DBRow} {t : JiraTicket}
    (h : hasChangesSave r t = false) : hasChangesMain r t = false := by
  unfold hasChangesSave at h
  unfold hasChangesMain
  simp only [Bool.or_eq_false_iff] at h ⊢
  exact ⟨⟨⟨⟨h.1.1.1.1.1.1.1, h.1.1.1.1.1.1.2⟩, h.1.1.1.1.1.2⟩, h.1.1.1.1.2⟩, h.2⟩

theorem foldl_processIssue_findRow_other (now : Nat) (issues : List JiraTicket)
    (tid : String) :
    ∀ acc : UpdRes, tid ∉ issues.map (fun t => t.ticket_id) →
      findRow (issues.foldl (processIssue now) acc).db tid = findRow acc.db tid := by
  induction issues with
  | nil => intro acc _; rfl
  | cons a l ih =>
      intro acc hnot
      have hne : a.ticket_id ≠ tid := by
        intro heq
        apply hnot
        rw [← heq]
        exact List.mem_map_of_mem _ (List.mem_cons_self a l)
      rw [List.foldl_cons, ih _ (fun hmem => hnot (List.mem_cons_of_mem _ hmem)),
        processIssue_db]
      exact save_ticket_findRow_other acc.db a now hne

/-- After the mirror update phase fold, every processed issue's first
stored row agrees with it on all eight compared fields. -/
theorem foldl_processIssue_establish (now : Nat) (issues : List JiraTicket) :
    ∀ acc : UpdRes, (issues.map (fun t => t.ticket_id)).Nodup →
      ∀ t ∈ issues,
        ∃ r, findRow (issues.foldl (processIssue now) acc).db t.ticket_id = some r ∧
          hasChangesSave r t = false := by
  induction issues with
  | nil => intro acc _ t ht; cases ht
  | cons a l ih =>
      intro acc hnodup t ht
      obtain ⟨hhead, htail⟩ := List.nodup_cons.mp hnodup
      rcases List.mem_cons.mp ht with rfl | hmem
      · rw [List.foldl_cons,
          foldl_processIssue_findRow_other now l t.ticket_id _ hhead,
          processIssue_db]
        exact save_ticket_establishes acc.db t now
      · rw [List.foldl_cons]
        exact ih (processIssue now acc a) htail t hmem

/-- When every issue already agrees with its stored row, the update fold
is a pure counter bump: no store change, no writes, nothing added or
updated. -/
theorem foldl_processIssue_noop (now : Nat) (issues : List JiraTicket) :
    ∀ acc : UpdRes,
      (∀ t ∈ issues, ∃ r, findRow acc.db t.ticket_id = some r ∧
        hasChangesSave r t = false) →
      (issues.foldl (processIssue now) acc).db = acc.db ∧
      (issues.foldl (processIssue now) acc).added = acc.added ∧
      (issues.foldl (processIssue now) acc).updated = acc.updated ∧
      (issues.foldl (processIssue now) acc).writes = acc.writes := by
  induction issues with
  | nil => intro acc _; exact ⟨rfl, rfl, rfl, rfl⟩
  | cons a l ih =>
      intro acc hP
      obtain ⟨r, hfind, hch⟩ := hP a (List.mem_cons_self a l)
      have hMain : hasChangesMain r a = false := hasChangesMain_of_saveFalse hch
      have hstep : processIssue now acc a = { acc with unchanged := acc.unchanged + 1 } := by
        rw [processIssue_eq_of_found now acc a r hfind, hMain,
          save_ticket_of_unchanged now hfind hch]
        rfl
      rw [List.foldl_cons, hstep]
      obtain ⟨i1, i2, i3, i4⟩ := ih { acc with unchanged := acc.unchanged + 1 }
        (fun t ht => hP t (List.mem_cons_of_mem a ht))
      exact ⟨i1, i2, i3, i4⟩

theorem update_db_establishes (db : List DBRow)
    (qs : List (Option String × List JiraTicket)) (now : Nat)
    (hids : ((flattenIssues qs).map (fun t => t.ticket_id)).Nodup) :
    ∀ t ∈ flattenIssues qs,
      ∃ r, findRow (update_db db qs now).db t.ticket_id = some r ∧
        hasChangesSave r t = false := by
  intro t ht
  have hne : (flattenIssues qs).isEmpty = false := by
    cases hl : flattenIssues qs with
    | nil => rw [hl] at ht; cases ht
    | cons a l => rfl
  rw [update_db_of_ne db qs now hne]
  exact foldl_processIssue_establish now _ ⟨db, 0, 0, 0, 0⟩ hids t ht

theorem update_db_noop (db : List DBRow)
    (qs : List (Option String × List JiraTicket)) (now : Nat)
    (hP : ∀ t ∈ flattenIssues qs, ∃ r, findRow db t.ticket_id = some r ∧
      hasChangesSave r t = false) :
    (update_db db qs now).db = db ∧ (update_db db qs now).added = 0 ∧
    (update_db db qs now).updated = 0 ∧ (update_db db qs now).writes = 0 := by
  cases hemp : (flattenIssues qs).isEmpty with
  | true => rw [update_db_of_empty db qs now hemp]; exact ⟨rfl, rfl, rfl, rfl⟩
  | false =>
      rw [update_db_of_ne db qs now hemp]
      exact foldl_processIssue_noop now _ ⟨db, 0, 0, 0, 0⟩ hP

/- ------------------------------------------------------------------ -/
/- The propagation phase only writes sync_state and things_id.         -/
/- ------------------------------------------------------------------ -/

theorem map_eq_of_pointwise {f g : DBRow → DBRow} :
    ∀ l : List DBRow, (∀ r, f r = g r) → l.map f = l.map g := by
  intro l h
  induction l with
  | nil => rfl
  | cons a t ih => rw [List.map_cons, List.map_cons, h a, ih]

theorem setSyncById_erase (db : List DBRow) (tid : String) (s : SyncState) :
    (setSyncById db tid s).map eraseSync = db.map eraseSync := by
  unfold setSyncById
  rw [List.map_map]
  exact map_eq_of_pointwise db (fun r => by
    by_cases h : r.ticket_id = tid <;> simp [h, eraseSync])

theorem setSyncAndThingsId_erase (db : List DBRow) (tid : String) (s : SyncState)
    (thid : Option String) :
    (setSyncAndThingsId db tid s thid).map eraseSync = db.map eraseSync := by
  unfold setSyncAndThingsId
  rw [List.map_map]
  exact map_eq_of_pointwise db (fun r => by
    by_cases h : r.ticket_id = tid <;> simp [h, eraseSync])

theorem processCreate_erase (sink : SinkModel) (acc : SyncRes) (t : JiraTicket) :
    ((processCreate sink acc t).db).map eraseSync = acc.db.map eraseSync := by
  cases ha : sink.addTask t with
  | some thid =>
      rw [processCreate_of_some sink acc t thid ha]
      exact setSyncAndThingsId_erase acc.db t.ticket_id SyncState.synced thid
  | none =>
      rw [processCreate_of_none sink acc t ha]
      exact setSyncById_erase acc.db t.ticket_id SyncState.unknown

theorem processUpdate_erase (sink : SinkModel) (auth : Option String)
    (acc : SyncRes) (t : JiraTicket) :
    ((processUpdate sink auth acc t).db).map eraseSync = acc.db.map eraseSync := by
  cases ha : optFalsy auth with
  | true => rw [processUpdate_of_noauth sink auth acc t ha]
  | false =>
      cases hu : sink.updateTask t with
      | true =>
          rw [processUpdate_of_ok sink auth acc t ha hu]
          exact setSyncById_erase acc.db t.ticket_id SyncState.synced
      | false =>
          rw [processUpdate_of_err sink auth acc t ha hu]
          exact setSyncById_erase acc.db t.ticket_id SyncState.unknown

theorem foldl_processCreate_erase (sink : SinkModel) (ts : List JiraTicket) :
    ∀ acc : SyncRes,
      ((ts.foldl (processCreate sink) acc).db).map eraseSync = acc.db.map eraseSync := by
  induction ts with
  | nil => intro acc; rfl
  | cons a l ih =>
      intro acc
      rw [List.foldl_cons, ih, processCreate_erase]

theorem foldl_processUpdate_erase (sink : SinkModel) (auth : Option String)
    (ts : List JiraTicket) :
    ∀ acc : SyncRes,
      ((ts.foldl (processUpdate sink auth) acc).db).map eraseSync
        = acc.db.map eraseSync := by
  induction ts with
  | nil => intro acc; rfl
  | cons a l ih =>
      intro acc
      rw [List.foldl_cons, ih, processUpdate_erase]

/-- The propagation phase rewrites only `synced_to_things` and
`things_id`: modulo `eraseSync`, the table is untouched. -/
theorem sync_db_erase (sink : SinkModel) (auth : Option String) (db : List DBRow) :
    ((sync_to_things sink auth db).db).map eraseSync = db.map eraseSync := by
  cases hemp : (get_unsynced_tickets db).isEmpty with
  | true => rw [sync_to_things_of_empty sink auth db hemp]
  | false =>
      rw [sync_to_things_of_ne sink auth db hemp, foldl_processUpdate_erase,
        foldl_processCreate_erase]

theorem resync_db_erase (sink : SinkModel) (auth : Option String) (db : List DBRow) :
    ((resync_to_things sink auth db).db).map eraseSync = db.map eraseSync := by
  cases hemp : (get_all_tickets db).isEmpty with
  | true => unfold resync_to_things; rw [hemp, if_pos rfl]
  | false =>
      rw [resync_to_things_of_ne sink auth db hemp, foldl_processUpdate_erase,
        foldl_processCreate_erase]

theorem findRow_transfer {db1 db2 : List DBRow}
    (he : db2.map eraseSync = db1.map eraseSync)
    {tid : String} {r : DBRow} (h : findRow db1 tid = some r) :
    ∃ r2, findRow db2 tid = some r2 ∧ eraseSync r2 = eraseSync r := by
  have h1 : findRow (db2.map eraseSync) tid = (findRow db2 tid).map eraseSync :=
    findRow_map db2 tid eraseSync (fun _ => rfl)
  have h2 : findRow (db1.map eraseSync) tid = (findRow db1 tid).map eraseSync :=
    findRow_map db1 tid eraseSync (fun _ => rfl)
  rw [he, h2, h] at h1
  cases hx : findRow db2 tid with
  | none => rw [hx] at h1; cases h1
  | some r2 =>
      rw [hx] at h1
      refine ⟨r2, rfl, ?_⟩
      have h1s : some (eraseSync r) = some (eraseSync r2) := h1
      injection h1s with h1s
      exact h1s.symm

theorem establishes_transfer {db1 db2 : List DBRow}
    (he : db2.map eraseSync = db1.map eraseSync) (t : JiraTicket)
    (h : ∃ r, findRow db1 t.ticket_id = some r ∧ hasChangesSave r t = false) :
    ∃ r2, findRow db2 t.ticket_id = some r2 ∧ hasChangesSave r2 t = false := by
  obtain ⟨r, hfind, hch⟩ := h
  obtain ⟨r2, hfind2, herase⟩ := findRow_transfer he hfind
  refine ⟨r2, hfind2, ?_⟩
  have hc2 : hasChangesSave (eraseSync r2) t = hasChangesSave (eraseSync r) t := by
    rw [herase]
  exact hc2.trans hch

/- ------------------------------------------------------------------ -/
/- Quiescence: after one propagation run, nothing is left to do.       -/
/- ------------------------------------------------------------------ -/

theorem processCreate_notSynced_orig (sink : SinkModel) (db0 : List DBRow) :
    ∀ (acc : SyncRes) (t : JiraTicket),
      (∀ r'' ∈ acc.db, r''.synced_to_things = SyncState.notSynced → r'' ∈ db0) →
      ∀ r'' ∈ (processCreate sink acc t).db,
        r''.synced_to_things = SyncState.notSynced → r'' ∈ db0 := by
  intro acc t hP r'' hmem hs
  obtain ⟨r, hr, _, hc⟩ := processCreate_mem_cases sink acc t hmem
  rcases hc with hval | ⟨_, hsync⟩
  · rw [hval]
    apply hP r hr
    rw [← hval]
    exact hs
  · rcases hsync with h1 | h1 <;> rw [hs] at h1 <;> cases h1

theorem processUpdate_notSynced_orig (sink : SinkModel) (auth : Option String)
    (db0 : List DBRow) :
    ∀ (acc : SyncRes) (t : JiraTicket),
      (∀ r'' ∈ acc.db, r''.synced_to_things = SyncState.notSynced → r'' ∈ db0) →
      ∀ r'' ∈ (processUpdate sink auth acc t).db,
        r''.synced_to_things = SyncState.notSynced → r'' ∈ db0 := by
  intro acc t hP r'' hmem hs
  obtain ⟨r, hr, _, hc⟩ := processUpdate_mem_cases sink auth acc t hmem
  rcases hc with hval | ⟨_, hsync⟩
  · rw [hval]
    apply hP r hr
    rw [← hval]
    exact hs
  · rcases hsync with h1 | h1 <;> rw [hs] at h1 <;> cases h1

theorem foldl_processCreate_notSynced_orig (sink : SinkModel) (db0 : List DBRow)
    (ts : List JiraTicket) :
    ∀ acc : SyncRes,
      (∀ r'' ∈ acc.db, r''.synced_to_things = SyncState.notSynced → r'' ∈ db0) →
      ∀ r'' ∈ (ts.foldl (processCreate sink) acc).db,
        r''.synced_to_things = SyncState.notSynced → r'' ∈ db0 := by
  induction ts with
  | nil => intro acc hP; exact hP
  | cons a l ih =>
      intro acc hP
      exact ih _ (processCreate_notSynced_orig sink db0 acc a hP)

theorem foldl_processUpdate_notSynced_orig (sink : SinkModel) (auth : Option String)
    (db0 : List DBRow) (ts : List JiraTicket) :
    ∀ acc : SyncRes,
      (∀ r'' ∈ acc.db, r''.synced_to_things = SyncState.notSynced → r'' ∈ db0) →
      ∀ r'' ∈ (ts.foldl (processUpdate sink auth) acc).db,
        r''.synced_to_things = SyncState.notSynced → r'' ∈ db0 := by
  induction ts with
  | nil => intro acc hP; exact hP
  | cons a l ih =>
      intro acc hP
      exact ih _ (processUpdate_notSynced_orig sink auth db0 acc a hP)

theorem processCreate_all_nonNS (sink : SinkModel) (t : JiraTicket) :
    ∀ acc : SyncRes, ∀ r'' ∈ (processCreate sink acc t).db,
      r''.ticket_id = t.ticket_id →
      r''.synced_to_things ≠ SyncState.notSynced := by
  intro acc r'' hmem hid
  cases ha : sink.addTask t with
  | some thid =>
      rw [processCreate_of_some sink acc t thid ha] at hmem
      rw [(setSyncAndThingsId_mem_id hmem hid).1]
      intro hcon
      cases hcon
  | none =>
      rw [processCreate_of_none sink acc t ha] at hmem
      rw [setSyncById_mem_id hmem hid]
      intro hcon
      cases hcon

theorem processUpdate_all_nonNS (sink : SinkModel) (auth : Option String)
    (t : JiraTicket) (ha : optFalsy auth = false) :
    ∀ acc : SyncRes, ∀ r'' ∈ (processUpdate sink auth acc t).db,
      r''.ticket_id = t.ticket_id →
      r''.synced_to_things ≠ SyncState.notSynced := by
  intro acc r'' hmem hid
  cases hu : sink.updateTask t with
  | true =>
      rw [processUpdate_of_ok sink auth acc t ha hu] at hmem
      rw [setSyncById_mem_id hmem hid]
      intro hcon
      cases hcon
  | false =>
      rw [processUpdate_of_err sink auth acc t ha hu] at hmem
      rw [setSyncById_mem_id hmem hid]
      intro hcon
      cases hcon

theorem processCreate_keeps_nonNS (sink : SinkModel) (acc : SyncRes) (t : JiraTicket)
    (X : String)
    (hK : ∀ r'' ∈ acc.db, r''.ticket_id = X →
      r''.synced_to_things ≠ SyncState.notSynced) :
    ∀ r'' ∈ (processCreate sink acc t).db, r''.ticket_id = X →
      r''.synced_to_things ≠ SyncState.notSynced := by
  intro r'' hmem hid
  obtain ⟨r, hr, hid2, hc⟩ := processCreate_mem_cases sink acc t hmem
  rcases hc with hval | ⟨_, hsync⟩
  · have := hK r hr (by rw [← hid2]; exact hid)
    rw [hval]
    intro hcon
    exact this hcon
  · rcases hsync with h1 | h1 <;> rw [h1] <;> intro hcon <;> cases hcon

theorem processUpdate_keeps_nonNS (sink : SinkModel) (auth : Option String)
    (acc : SyncRes) (t : JiraTicket) (X : String)
    (hK : ∀ r'' ∈ acc.db, r''.ticket_id = X →
      r''.synced_to_things ≠ SyncState.notSynced) :
    ∀ r'' ∈ (processUpdate sink auth acc t).db, r''.ticket_id = X →
      r''.synced_to_things ≠ SyncState.notSynced := by
  intro r'' hmem hid
  obtain ⟨r, hr, hid2, hc⟩ := processUpdate_mem_cases sink auth acc t hmem
  rcases hc with hval | ⟨_, hsync⟩
  · have := hK r hr (by rw [← hid2]; exact hid)
    rw [hval]
    intro hcon
    exact this hcon
  · rcases hsync with h1 | h1 <;> rw [h1] <;> intro hcon <;> cases hcon

theorem foldl_processCreate_keeps_nonNS (sink : SinkModel) (ts : List JiraTicket)
    (X : String) :
    ∀ acc : SyncRes,
      (∀ r'' ∈ acc.db, r''.ticket_id = X →
        r''.synced_to_things ≠ SyncState.notSynced) →
      ∀ r'' ∈ (ts.foldl (processCreate sink) acc).db, r''.ticket_id = X →
        r''.synced_to_things ≠ SyncState.notSynced := by
  induction ts with
  | nil => intro acc hK; exact hK
  | cons a l ih =>
      intro acc hK
      exact ih _ (processCreate_keeps_nonNS sink acc a X hK)

theorem foldl_processUpdate_keeps_nonNS (sink : SinkModel) (auth : Option String)
    (ts : List JiraTicket) (X : String) :
    ∀ acc : SyncRes,
      (∀ r'' ∈ acc.db, r''.ticket_id = X →
        r''.synced_to_things ≠ SyncState.notSynced) →
      ∀ r'' ∈ (ts.foldl (processUpdate sink auth) acc).db, r''.ticket_id = X →
        r''.synced_to_things ≠ SyncState.notSynced := by
  induction ts with
  | nil => intro acc hK; exact hK
  | cons a l ih =>
      intro acc hK
      exact ih _ (processUpdate_keeps_nonNS sink auth acc a X hK)

theorem foldl_processCreate_establish_nonNS (sink : SinkModel) (ts : List JiraTicket)
    (tc : JiraTicket) (htc : tc ∈ ts) :
    ∀ acc : SyncRes, ∀ r'' ∈ (ts.foldl (processCreate sink) acc).db,
      r''.ticket_id = tc.ticket_id →
      r''.synced_to_things ≠ SyncState.notSynced := by
  induction ts with
  | nil => cases htc
  | cons a l ih =>
      intro acc
      rcases List.mem_cons.mp htc with rfl | hmem
      · exact foldl_processCreate_keeps_nonNS sink l tc.ticket_id _
          (processCreate_all_nonNS sink tc acc)
      · exact ih hmem _

theorem foldl_processUpdate_establish_nonNS (sink : SinkModel) (auth : Option String)
    (ts : List JiraTicket) (tc : JiraTicket) (ha : optFalsy auth = false)
    (htc : tc ∈ ts) :
    ∀ acc : SyncRes, ∀ r'' ∈ (ts.foldl (processUpdate sink auth) acc).db,
      r''.ticket_id = tc.ticket_id →
      r''.synced_to_things ≠ SyncState.notSynced := by
  induction ts with
  | nil => cases htc
  | cons a l ih =>
      intro acc
      rcases List.mem_cons.mp htc with rfl | hmem
      · exact foldl_processUpdate_keeps_nonNS sink auth l tc.ticket_id _
          (processUpdate_all_nonNS sink auth tc ha acc)
      · exact ih hmem _

/-- After any propagation run, every row still NotSynced was untouched:
it already belonged to the input table, its `things_id` is non-empty,
and the auth token is missing (the entry was skipped, not attempted). -/
theorem sync_quiescent (sink : SinkModel) (auth : Option String) (db : List DBRow) :
    ∀ r' ∈ (sync_to_things sink auth db).db,
      r'.synced_to_things = SyncState.notSynced →
      optFalsy r'.things_id = false ∧ optFalsy auth = true := by
  intro r' hmem hs
  cases hemp : (get_unsynced_tickets db).isEmpty with
  | true =>
      exfalso
      rw [sync_to_things_of_empty sink auth db hemp] at hmem
      have hmm := mem_get_unsynced hmem hs
      cases hl : get_unsynced_tickets db with
      | nil => rw [hl] at hmm; cases hmm
      | cons a l => rw [hl] at hemp; cases hemp
  | false =>
      rw [sync_to_things_of_ne sink auth db hemp] at hmem
      have horig : r' ∈ db :=
        foldl_processUpdate_notSynced_orig sink auth db _ _
          (foldl_processCreate_notSynced_orig sink db _ ⟨db, 0, 0, 0, 0⟩
            (fun r'' h _ => h))
          r' hmem hs
      by_cases hof : optFalsy r'.things_id = true
      · exfalso
        have htc : rowToTicket r' ∈ (partitionByThingsId (get_unsynced_tickets db)).1 :=
          List.mem_filter.mpr ⟨mem_get_unsynced horig hs, by simp [rowToTicket, hof]⟩
        exact foldl_processUpdate_keeps_nonNS sink auth _ (rowToTicket r').ticket_id _
          (foldl_processCreate_establish_nonNS sink _ (rowToTicket r') htc
            ⟨db, 0, 0, 0, 0⟩)
          r' hmem rfl hs
      · have hof' : optFalsy r'.things_id = false := by
          cases hx : optFalsy r'.things_id
          · rfl
          · exact absurd hx hof
        refine ⟨hof', ?_⟩
        by_cases hau : optFalsy auth = true
        · exact hau
        · exfalso
          have hau' : optFalsy auth = false := by
            cases hx : optFalsy auth
            · rfl
            · exact absurd hx hau
          have htu : rowToTicket r' ∈ (partitionByThingsId (get_unsynced_tickets db)).2 :=
            List.mem_filter.mpr ⟨mem_get_unsynced horig hs, by simp [rowToTicket, hof']⟩
          exact foldl_processUpdate_establish_nonNS sink auth _ (rowToTicket r') hau' htu
            _ r' hmem rfl hs

/-- Over a quiescent table (no create work left, and update work only
when the auth token is missing), a propagation run writes nothing and
reports 0 added and 0 updated. -/
theorem sync_of_quiescent (sink : SinkModel) (auth : Option String) (db : List DBRow)
    (hq : ∀ r ∈ db, r.synced_to_things = SyncState.notSynced →
      optFalsy r.things_id = false ∧ optFalsy auth = true) :
    (sync_to_things sink auth db).db = db ∧
    (sync_to_things sink auth db).added = 0 ∧
    (sync_to_things sink auth db).updated = 0 ∧
    (sync_to_things sink auth db).writes = 0 := by
  cases hemp : (get_unsynced_tickets db).isEmpty with
  | true =>
      rw [sync_to_things_of_empty sink auth db hemp]
      exact ⟨rfl, rfl, rfl, rfl⟩
  | false =>
      rw [sync_to_things_of_ne sink auth db hemp]
      have hcr : (partitionByThingsId (get_unsynced_tickets db)).1 = [] := by
        show (get_unsynced_tickets db).filter (fun t => optFalsy t.things_id) = []
        rw [List.filter_eq_nil_iff]
        intro t ht
        obtain ⟨r, hrmem, hrt⟩ := List.mem_map.mp ht
        have hrfil := List.mem_filter.mp hrmem
        have hsr : r.synced_to_things = SyncState.notSynced := by
          simpa using hrfil.2
        have hnf := (hq r hrfil.1 hsr).1
        rw [← hrt]
        simp [rowToTicket, hnf]
      rw [hcr, List.foldl_nil]
      cases hau : optFalsy auth with
      | true =>
          obtain ⟨u1, u2, u3, u4⟩ := foldl_processUpdate_counts sink auth
            (partitionByThingsId (get_unsynced_tickets db)).2 ⟨db, 0, 0, 0, 0⟩
          refine ⟨?_, ?_, ?_, ?_⟩
          · rw [foldl_processUpdate_noauth_db sink auth hau _ _]
          · rw [u1]
          · rw [u2]
            simp [hau]
          · rw [u4]
            simp [hau]
      | false =>
          exfalso
          cases hl : get_unsynced_tickets db with
          | nil => rw [hl] at hemp; cases hemp
          | cons a l2 =>
              have ha2 : a ∈ get_unsynced_tickets db := by
                rw [hl]
                exact List.mem_cons_self a l2
              obtain ⟨r, hrmem, hrt⟩ := List.mem_map.mp ha2
              have hrfil := List.mem_filter.mp hrmem
              have hsr : r.synced_to_things = SyncState.notSynced := by
                simpa using hrfil.2
              have := (hq r hrfil.1 hsr).2
              rw [this] at hau
              cases hau

/- ------------------------------------------------------------------ -/
/- C2: idempotence of the full pipeline.                               -/
/- ------------------------------------------------------------------ -/

/-- C2: running the full pipeline (mirror update phase followed by
propagation phase) twice over the same source record set — with distinct
record ids, as ids are the mirror's primary key — performs zero
mirror-store writes in the second run, and the second run reports
0 added and 0 updated in both phases. -/
theorem claim2 (sink : SinkModel) (auth : Option String)
    (qs : List (Option String × List JiraTicket)) (now1 now2 : Nat)
    (db0 : List DBRow)
    (hids : ((flattenIssues qs).map (fun t => t.ticket_id)).Nodup) :
    (runFull sink auth qs now2 (runFull sink auth qs now1 db0).2.db).1.writes = 0 ∧
    (runFull sink auth qs now2 (runFull sink auth qs now1 db0).2.db).2.writes = 0 ∧
    (runFull sink auth qs now2 (runFull sink auth qs now1 db0).2.db).1.added = 0 ∧
    (runFull sink auth qs now2 (runFull sink auth qs now1 db0).2.db).1.updated = 0 ∧
    (runFull sink auth qs now2 (runFull sink auth qs now1 db0).2.db).2.added = 0 ∧
    (runFull sink auth qs now2 (runFull sink auth qs now1 db0).2.db).2.updated = 0 := by
  have herase := sync_db_erase sink auth (update_db db0 qs now1).db
  have hP2 : ∀ t ∈ flattenIssues qs,
      ∃ r, findRow (sync_to_things sink auth (update_db db0 qs now1).db).db t.ticket_id
          = some r ∧ hasChangesSave r t = false :=
    fun t ht => establishes_transfer herase t (update_db_establishes db0 qs now1 hids t ht)
  obtain ⟨hu1, hu2, hu3, hu4⟩ :=
    update_db_noop (sync_to_things sink auth (update_db db0 qs now1).db).db qs now2 hP2
  have hq1 := sync_quiescent sink auth (update_db db0 qs now1).db
  have hq2 : ∀ r ∈ (update_db
        (sync_to_things sink auth (update_db db0 qs now1).db).db qs now2).db,
      r.synced_to_things = SyncState.notSynced →
      optFalsy r.things_id = false ∧ optFalsy auth = true := by
    rw [hu1]
    exact hq1
  obtain ⟨hs1, hs2, hs3, hs4⟩ := sync_of_quiescent sink auth _ hq2
  exact ⟨hu4, hs4, hu2, hu3, hs2, hs3⟩

/-- Witness for `claim2`: one fresh record fetched into an empty mirror
and accepted by the sink; the second identical run writes nothing and
reports zero added/updated in both phases. -/
theorem claim2_witness :
    ((flattenIssues [(some "Work", [exTicketNew])]).map (fun t => t.ticket_id)).Nodup ∧
    ((runFull exSinkOkNone (some "tok") [(some "Work", [exTicketNew])] 2
        (runFull exSinkOkNone (some "tok") [(some "Work", [exTicketNew])] 1
          []).2.db).1.writes = 0 ∧
     (runFull exSinkOkNone (some "tok") [(some "Work", [exTicketNew])] 2
        (runFull exSinkOkNone (some "tok") [(some "Work", [exTicketNew])] 1
          []).2.db).2.writes = 0 ∧
     (runFull exSinkOkNone (some "tok") [(some "Work", [exTicketNew])] 2
        (runFull exSinkOkNone (some "tok") [(some "Work", [exTicketNew])] 1
          []).2.db).1.added = 0 ∧
     (runFull exSinkOkNone (some "tok") [(some "Work", [exTicketNew])] 2
        (runFull exSinkOkNone (some "tok") [(some "Work", [exTicketNew])] 1
          []).2.db).1.updated = 0 ∧
     (runFull exSinkOkNone (some "tok") [(some "Work", [exTicketNew])] 2
        (runFull exSinkOkNone (some "tok") [(some "Work", [exTicketNew])] 1
          []).2.db).2.added = 0 ∧
     (runFull exSinkOkNone (some "tok") [(some "Work", [exTicketNew])] 2
        (runFull exSinkOkNone (some "tok") [(some "Work", [exTicketNew])] 1
          []).2.db).2.updated = 0) :=
  ⟨by decide,
   claim2 exSinkOkNone (some "tok") [(some "Work", [exTicketNew])] 1 2 [] (by decide)⟩

/- ------------------------------------------------------------------ -/
/- C4: nothing in any mode touches present_in_last_fetch.              -/
/- ------------------------------------------------------------------ -/

theorem forall₂_samePresent_refl (l : List DBRow) : List.Forall₂ samePresent l l := by
  induction l with
  | nil => exact List.Forall₂.nil
  | cons a t ih => exact List.Forall₂.cons rfl ih

theorem forall₂_samePresent_map {db0 db1 : List DBRow} (f : DBRow → DBRow)
    (hf : ∀ r, (f r).present_in_last_fetch = r.present_in_last_fetch)
    (h : List.Forall₂ samePresent db0 db1) :
    List.Forall₂ samePresent db0 (db1.map f) := by
  induction h with
  | nil => exact List.Forall₂.nil
  | cons hab hrest ih =>
      rw [List.map_cons]
      refine List.Forall₂.cons ?_ ih
      unfold samePresent at hab ⊢
      rw [hf]
      exact hab

theorem samePresent_of_erase {dbA dbB : List DBRow}
    (he : dbB.map eraseSync = dbA.map eraseSync) :
    List.Forall₂ samePresent dbA dbB := by
  induction dbA generalizing dbB with
  | nil =>
      cases dbB with
      | nil => exact List.Forall₂.nil
      | cons b m => cases he
  | cons a l ih =>
      cases dbB with
      | nil => cases he
      | cons b m =>
          rw [List.map_cons, List.map_cons] at he
          injection he with h1 h2
          refine List.Forall₂.cons ?_ (ih h2)
          show b.present_in_last_fetch = a.present_in_last_fetch
          have : (eraseSync b).present_in_last_fetch
              = (eraseSync a).present_in_last_fetch := by rw [h1]
          exact this

theorem forall₂_append_split {R : DBRow → DBRow → Prop} :
    ∀ (l1 l2 L : List DBRow), List.Forall₂ R (l1 ++ l2) L →
      ∃ L1 L2, L = L1 ++ L2 ∧ List.Forall₂ R l1 L1 ∧ List.Forall₂ R l2 L2 := by
  intro l1
  induction l1 with
  | nil => intro l2 L h; exact ⟨[], L, rfl, List.Forall₂.nil, h⟩
  | cons a l ih =>
      intro l2 L h
      cases h with
      | cons hab htail =>
          obtain ⟨L1, L2, rfl, h1, h2⟩ := ih l2 _ htail
          exact ⟨_ :: L1, L2, rfl, List.Forall₂.cons hab h1, h2⟩

theorem forall₂_samePresent_trans {l1 l2 l3 : List DBRow}
    (h12 : List.Forall₂ samePresent l1 l2) (h23 : List.Forall₂ samePresent l2 l3) :
    List.Forall₂ samePresent l1 l3 := by
  induction h12 generalizing l3 with
  | nil => cases h23; exact List.Forall₂.nil
  | cons hab hrest ih =>
      cases h23 with
      | cons hbc htail =>
          exact List.Forall₂.cons (hbc.trans hab) (ih htail)

theorem forall₂_present_true {l1 l2 : List DBRow}
    (h : List.Forall₂ samePresent l1 l2)
    (htrue : ∀ r ∈ l1, r.present_in_last_fetch = true) :
    ∀ r ∈ l2, r.present_in_last_fetch = true := by
  induction h with
  | nil => intro r hr; cases hr
  | cons hab hrest ih =>
      intro r hr
      rcases List.mem_cons.mp hr with rfl | hr2
      · rw [hab]
        exact htrue _ (List.mem_cons_self _ _)
      · exact ih (fun r2 hr3 => htrue r2 (List.mem_cons_of_mem _ hr3)) r hr2

theorem saveUpd_present (t : JiraTicket) (thid : Option String) (now : Nat)
    (row : DBRow) :
    (saveUpd t thid now row).present_in_last_fetch = row.present_in_last_fetch := by
  unfold saveUpd
  by_cases h : row.ticket_id = t.ticket_id <;> simp [h, updatedRow]

theorem processIssue_frame (now : Nat) (db0 : List DBRow) (acc : UpdRes)
    (t : JiraTicket)
    (hInv : ∃ db1 dbNew, acc.db = db1 ++ dbNew ∧
      List.Forall₂ samePresent db0 db1 ∧
      ∀ r ∈ dbNew, r.present_in_last_fetch = true) :
    ∃ db1 dbNew, (processIssue now acc t).db = db1 ++ dbNew ∧
      List.Forall₂ samePresent db0 db1 ∧
      ∀ r ∈ dbNew, r.present_in_last_fetch = true := by
  obtain ⟨db1, dbNew, hsplit, hF, hnew⟩ := hInv
  rw [processIssue_db]
  cases hf : findRow acc.db t.ticket_id with
  | none =>
      rw [save_ticket_fst_of_none now hf, hsplit, List.append_assoc]
      refine ⟨db1, dbNew ++ [insertedRow t now], rfl, hF, ?_⟩
      intro r hr
      rcases List.mem_append.mp hr with h | h
      · exact hnew r h
      · have hri : r = insertedRow t now := by simpa using h
        rw [hri]
        rfl
  | some r0 =>
      by_cases hc : hasChangesSave r0 t = true
      · rw [save_ticket_fst_of_changed now hf hc, hsplit, List.map_append]
        refine ⟨db1.map (saveUpd t _ now), dbNew.map (saveUpd t _ now), rfl,
          forall₂_samePresent_map _ (saveUpd_present t _ now) hF, ?_⟩
        intro r hr
        obtain ⟨r1, hr1, hre⟩ := List.mem_map.mp hr
        rw [← hre, saveUpd_present]
        exact hnew r1 hr1
      · have hc' : hasChangesSave r0 t = false := by simpa using hc
        rw [save_ticket_fst_of_unchanged now hf hc']
        exact ⟨db1, dbNew, hsplit, hF, hnew⟩

theorem foldl_processIssue_frame (now : Nat) (db0 : List DBRow)
    (issues : List JiraTicket) :
    ∀ acc : UpdRes,
      (∃ db1 dbNew, acc.db = db1 ++ dbNew ∧ List.Forall₂ samePresent db0 db1 ∧
        ∀ r ∈ dbNew, r.present_in_last_fetch = true) →
      ∃ db1 dbNew, (issues.foldl (processIssue now) acc).db = db1 ++ dbNew ∧
        List.Forall₂ samePresent db0 db1 ∧
        ∀ r ∈ dbNew, r.present_in_last_fetch = true := by
  induction issues with
  | nil => intro acc h; exact h
  | cons a l ih =>
      intro acc h
      exact ih _ (processIssue_frame now db0 acc a h)

theorem update_db_frame (db : List DBRow)
    (qs : List (Option String × List JiraTicket)) (now : Nat) :
    ∃ db1 dbNew, (update_db db qs now).db = db1 ++ dbNew ∧
      List.Forall₂ samePresent db db1 ∧
      ∀ r ∈ dbNew, r.present_in_last_fetch = true := by
  cases hemp : (flattenIssues qs).isEmpty with
  | true =>
      rw [update_db_of_empty db qs now hemp]
      exact ⟨db, [], (List.append_nil db).symm, forall₂_samePresent_refl db,
        fun r hr => absurd hr (List.not_mem_nil r)⟩
  | false =>
      rw [update_db_of_ne db qs now hemp]
      exact foldl_processIssue_frame now db _ ⟨db, 0, 0, 0, 0⟩
        ⟨db, [], (List.append_nil db).symm, forall₂_samePresent_refl db,
          fun r hr => absurd hr (List.not_mem_nil r)⟩

/-- C4: no mode of the program's entry point — update-db, sync,
resync, or the default both-phase run — ever modifies an entry's
`present_in_last_fetch`: existing rows keep their flag pointwise, and
rows inserted during the run carry the insertion default `true`.
(`mark_present`, the only writer of that column, is never invoked.) -/
theorem claim4 (m : Mode) (sink : SinkModel) (auth : Option String)
    (qs : List (Option String × List JiraTicket)) (now : Nat) (db : List DBRow) :
    ∃ db1 dbNew, runMode m sink auth qs now db = db1 ++ dbNew ∧
      List.Forall₂ samePresent db db1 ∧
      ∀ r ∈ dbNew, r.present_in_last_fetch = true := by
  cases m with
  | updateDbOnly => exact update_db_frame db qs now
  | syncOnly =>
      exact ⟨(sync_to_things sink auth db).db, [],
        (List.append_nil _).symm,
        samePresent_of_erase (sync_db_erase sink auth db),
        fun r hr => absurd hr (List.not_mem_nil r)⟩
  | resyncOnly =>
      exact ⟨(resync_to_things sink auth db).db, [],
        (List.append_nil _).symm,
        samePresent_of_erase (resync_db_erase sink auth db),
        fun r hr => absurd hr (List.not_mem_nil r)⟩
  | fullSync =>
      obtain ⟨db1, dbNew, hsplit, h2, h3⟩ := update_db_frame db qs now
      have hsync := samePresent_of_erase
        (sync_db_erase sink auth (update_db db qs now).db)
      obtain ⟨L1, L2, hL, hA, hB⟩ := forall₂_append_split db1 dbNew
        (sync_to_things sink auth (update_db db qs now).db).db
        (by rw [← hsplit]; exact hsync)
      exact ⟨L1, L2, hL, forall₂_samePresent_trans h2 hA, forall₂_present_true hB h3⟩

end JiraToThings
